import Mathlib

/-!
# miband-heart-rate: ingestion, smoothing, alarm, transport and configuration

A shallow embedding of `src/src/App.jsx`.

* JavaScript values that can reach the code (results of `JSON.parse`, of
  `response.json()`, and `undefined` for a missing property) are the type `JsVal`.
  The numbers carried by payloads, thresholds and timestamps are exact rationals. The one
  place where the code adds and divides is `sma`: it is defined over any arithmetic and its
  properties are stated over IEEE doubles (`Dbl`, with correctly rounded `+` and `/`).
* React state (`data`, `status`) and refs (`sseRef`, `pollRef`) are fields of `State`;
  state updaters are pure functions on the previous value.
* The browser is the environment: it owns the `EventSource` objects, the interval timers and
  the pending `fetch` requests, and it decides which callback runs next (`Event`, `step`).
* `Date.now()`, the outcome of `JSON.parse`, of `localStorage.getItem`, of
  `new EventSource(..)` and of `fetch` are inputs of the functions that use them.
-/

namespace MiBand

/-! ## JavaScript values -/

/-- A JavaScript string: a sequence of UTF-16 code units. -/
abbrev JsString := List UInt16

/-- The code units of one character: itself in the basic plane, a surrogate pair above. -/
def utf16Char (c : Char) : List UInt16 :=
  if c.toNat < 0x10000 then [UInt16.ofNat c.toNat]
  else
    [UInt16.ofNat (0xD800 + (c.toNat - 0x10000) / 0x400),
     UInt16.ofNat (0xDC00 + (c.toNat - 0x10000) % 0x400)]

/-- The JavaScript string with the given text. -/
def utf16 (s : String) : JsString := s.toList.flatMap utf16Char

/-- A JavaScript value as the code can observe it: a JSON value, or `undefined`. Property
names are kept as text. -/
inductive JsVal where
  | undefined
  | null
  | bool (b : Bool)
  | num (q : ℚ)
  | str (s : JsString)
  | arr (xs : List JsVal)
  | obj (kvs : List (String × JsVal))

/-- An exception value; the code never inspects the exceptions it catches. -/
structure JsError where
  msg : String

/-- JavaScript truthiness (`!v` is its negation, `a || b` tests it on `a`). -/
def JsVal.truthy : JsVal → Bool
  | .undefined => false
  | .null => false
  | .bool b => b
  | .num q => decide (q ≠ 0)
  | .str s => decide (s ≠ [])
  | .arr _ => true
  | .obj _ => true

/-- Property read `v.k` for a name `k` that is neither an index nor `length` (the code reads
only `hr` and `ts`): the own property of an object, `undefined` otherwise. -/
def getProp (v : JsVal) (k : String) : JsVal :=
  match v with
  | .obj kvs =>
    match kvs.lookup k with
    | some x => x
    | none => .undefined
  | _ => .undefined

/-- The expression `a || b`. -/
def jsOr (a b : JsVal) : JsVal := if a.truthy then a else b

/-- Own enumerable string-keyed properties, as object spread `...v` copies them: the entries
of an object, the indices of an array, the indices of a string (each holding the string of
that one code unit), and nothing for `null`, `undefined`, booleans and numbers. -/
def ownEntries : JsVal → List (String × JsVal)
  | .obj kvs => kvs
  | .arr xs => xs.enum.map (fun ix => (toString ix.1, ix.2))
  | .str s => s.enum.map (fun iu => (toString iu.1, JsVal.str [iu.2]))
  | _ => []

/-- The value of a decimal digit. -/
def digitValue (c : Char) : Option Nat :=
  if '0' ≤ c ∧ c ≤ '9' then some (c.toNat - '0'.toNat) else none

/-- The number written by a list of digits, continuing from the value `acc` read so far. -/
def readDigits : List Char → Nat → Option Nat
  | [], acc => some acc
  | c :: cs, acc =>
    match digitValue c with
    | some d => readDigits cs (10 * acc + d)
    | none => none

/-- The array index a property name denotes, if any: the name is the canonical decimal form
of an integer below `2^32 - 1`. -/
def arrayIndex? (k : String) : Option Nat :=
  match k.toList with
  | [] => none
  | c :: cs =>
    if c = '0' ∧ cs ≠ [] then none
    else
      match readDigits (c :: cs) 0 with
      | some n => if n < 4294967295 then some n else none
      | none => none

/-- Create the property `k`, which is the array index `n`, in an object that lacks it: after
the index keys below `n` and before every other key. -/
def insertIndex (kvs : List (String × JsVal)) (n : Nat) (k : String) (v : JsVal) :
    List (String × JsVal) :=
  match kvs with
  | [] => [(k, v)]
  | kv :: rest =>
    match arrayIndex? kv.1 with
    | some m => if m < n then kv :: insertIndex rest n k v else (k, v) :: kv :: rest
    | none => (k, v) :: kv :: rest

/-- Define or overwrite one property of an object under construction, the entries being in
the order JavaScript enumerates them (index keys ascending, then the other keys in order of
creation): an existing key keeps its place, a new index key goes among the index keys, any
other new key goes last. -/
def setProp (kvs : List (String × JsVal)) (k : String) (v : JsVal) : List (String × JsVal) :=
  if kvs.any (fun kv => kv.1 == k) then kvs.map (fun kv => if kv.1 = k then (k, v) else kv)
  else
    match arrayIndex? k with
    | some n => insertIndex kvs n k v
    | none => kvs ++ [(k, v)]

/-- One spread `...src` inside an object literal whose properties so far are `target`. -/
def spread (target : List (String × JsVal)) (src : JsVal) : List (String × JsVal) :=
  (ownEntries src).foldl (fun acc kv => setProp acc kv.1 kv.2) target

/-- A `try { body } catch(e) { handler }` block. -/
def tryCatch {α : Type} (body : Except JsError α) (handler : JsError → Except JsError α) :
    Except JsError α :=
  match body with
  | .ok a => .ok a
  | .error e => handler e

/-! ## Configuration store (`DEFAULT_CONFIG`, `loadConfig`) -/

/-- The constant `DEFAULT_CONFIG` (App.jsx lines 4-22). -/
def DEFAULT_CONFIG : JsVal :=
  .obj [
    ("useSSE", .bool true),
    ("sseUrl", .str (utf16 "http://127.0.0.1:3030/events")),
    ("latestUrl", .str (utf16 "http://127.0.0.1:3030/latest")),
    ("pollInterval", .num 1000),
    ("smoothingWindow", .num 5),
    ("showChart", .bool true),
    ("showNumber", .bool true),
    ("enableAlarm", .bool true),
    ("alarmHigh", .num 180),
    ("alarmLow", .num 40),
    ("theme", .obj [
      ("bg", .str (utf16 "rgba(0,0,0,0.4)")),
      ("text", .str (utf16 "#ffffff")),
      ("accent", .str (utf16 "#ff4d4f")),
      ("fontSize", .num 72)]),
    ("floatingMode", .bool false)]

/-- The body of `loadConfig` (App.jsx lines 24-31) over an arbitrary default record.
`getItem` is the outcome of `localStorage.getItem('miband_config_v1')` (it may throw, return
`null` or a string) and `jsonParse` is `JSON.parse`. -/
def loadConfigFrom (dflt : JsVal) (getItem : Except JsError (Option String))
    (jsonParse : String → Except JsError JsVal) : Except JsError JsVal :=
  tryCatch
    (match getItem with
     | .error e => .error e
     | .ok none => .ok dflt
     | .ok (some raw) =>
       if raw = "" then .ok dflt
       else
         match jsonParse raw with
         | .error e => .error e
         | .ok parsed => .ok (.obj (spread (spread [] dflt) parsed)))
    (fun _ => .ok dflt)

/-- The function `loadConfig` of App.jsx. -/
def loadConfig (getItem : Except JsError (Option String))
    (jsonParse : String → Except JsError JsVal) : Except JsError JsVal :=
  loadConfigFrom DEFAULT_CONFIG getItem jsonParse

/-! ## Sample buffer (`addPoint`) -/

/-- One element of the `data` state: `{t, hr}`. -/
structure Sample where
  t : JsVal
  hr : ℚ

/-- The element built at App.jsx line 119: `{t: obj.ts||Date.now(), hr: obj.hr}`. -/
def mkSample (obj : JsVal) (hr : ℚ) (now : Nat) : Sample :=
  { t := jsOr (getProp obj "ts") (.num (now : ℚ)), hr := hr }

/-- Line 119, the array before truncation: `[...prev, sample]`. -/
def pushSample (prev : List Sample) (s : Sample) : List Sample := prev ++ [s]

/-- Line 120: `if(next.length > 240) next.splice(0, next.length-240)`. -/
def truncate (next : List Sample) : List Sample :=
  if next.length > 240 then next.drop (next.length - 240) else next

/-- The state updater passed to `setData` (lines 118-122). -/
def addPointUpdater (obj : JsVal) (hr : ℚ) (now : Nat) (prev : List Sample) : List Sample :=
  truncate (pushSample prev (mkSample obj hr now))

/-- The function `addPoint` (lines 116-123) as a transformer of the `data` state: the guard
`!obj || typeof obj.hr !== 'number'` returns without calling `setData`. -/
def addPoint (obj : JsVal) (now : Nat) (prev : List Sample) : List Sample :=
  if !obj.truthy then prev
  else
    match getProp obj "hr" with
    | .num hr => addPointUpdater obj hr now prev
    | _ => prev

/-- Feeding payloads one by one, each with the clock reading at its receipt. -/
def feed (payloads : List (JsVal × Nat)) (buf : List Sample) : List Sample :=
  payloads.foldl (fun acc p => addPoint p.1 p.2 acc) buf

/-- The sample a payload contributes, when its guard passes. -/
def sampleOf (p : JsVal × Nat) : Option Sample :=
  if !p.1.truthy then none
  else
    match getProp p.1 "hr" with
    | .num hr => some (mkSample p.1 hr p.2)
    | _ => none

/-! ## Smoothing (`sma`) -/

/-- The method `Array.prototype.slice(start, end)` for integer arguments. -/
def jsSlice {α : Type} (xs : List α) (start stop : Int) : List α :=
  let len : Int := xs.length
  let k : Int := if start < 0 then max (len + start) 0 else min start len
  let fin : Int := if stop < 0 then max (len + stop) 0 else min stop len
  (xs.drop k.toNat).take (fin - k).toNat

/-- The function `sma` (line 159) for an array `values` and an integer `window`; the loop
pushes one average per index. The arithmetic is that of `α`. -/
def sma {α : Type} [Zero α] [Add α] [Div α] [NatCast α] (values : List α) (window : Int) :
    List α :=
  if window ≤ 1 then values
  else
    (List.range values.length).foldl
      (fun (out : List α) (i : Nat) =>
        let s : Int := max 0 ((i : Int) - window + 1)
        let slice := jsSlice values s ((i : Int) + 1)
        let avg := slice.foldl (fun a b => a + b) 0 / (slice.length : α)
        out ++ [avg])
      []

/-- The arithmetic mean of a list of rationals. -/
def mean (xs : List ℚ) : ℚ := xs.sum / (xs.length : ℚ)

/-- The mean as line 159 computes it: the sum taken from `0` left to right, divided by the
number of values, in the arithmetic of `α`. -/
def fmean {α : Type} [Zero α] [Add α] [Div α] [NatCast α] (xs : List α) : α :=
  xs.foldl (fun a b => a + b) 0 / (xs.length : α)

/-- The inclusive segment `values[lo .. hi]`. -/
def segment {α : Type} (values : List α) (lo hi : Nat) : List α :=
  (values.drop lo).take (hi + 1 - lo)

/-! ## IEEE 754 double precision (the arithmetic of JavaScript numbers) -/

/-- A double. `fin neg m e` is the number `(-1)^neg * m * 2^e`; the doubles proper are the
canonical ones (`Dbl.Canonical`). -/
inductive Dbl where
  | nan
  | inf (neg : Bool)
  | fin (neg : Bool) (m : Nat) (e : Int)
  deriving DecidableEq

/-- The finite doubles: 53 bits of significand, exponent of the last bit from -1074 to 971,
and a full significand unless the exponent is the least one (subnormals and zero). -/
def Dbl.Canonical : Dbl → Prop
  | .fin _ m e => m < 2 ^ 53 ∧ -1074 ≤ e ∧ e ≤ 971 ∧ (2 ^ 52 ≤ m ∨ e = -1074)
  | _ => True

/-- Counting binary digits, 64 at a time while the number has more than 64 of them. -/
def bitLengthAux : Nat → Nat → Nat
  | 0, _ => 0
  | fuel + 1, n =>
    if n = 0 then 0
    else if 2 ^ 64 ≤ n then bitLengthAux fuel (n / 2 ^ 64) + 64
    else bitLengthAux fuel (n / 2) + 1

/-- The number of binary digits of `n`. -/
def bitLength (n : Nat) : Nat := bitLengthAux n n

/-- Whether `d * 2^k ≤ n`, for an integer `k`. -/
def scaledLe (d n : Nat) (k : Int) : Bool :=
  if 0 ≤ k then decide (d * 2 ^ k.toNat ≤ n) else decide (d ≤ n * 2 ^ (-k).toNat)

/-- The integer part of the binary logarithm of `n / d`, for positive `n` and `d`. -/
def floorLog2 (n d : Nat) : Int :=
  let k : Int := (bitLength n : Int) - (bitLength d : Int)
  if scaledLe d n k then k else k - 1

/-- The integer nearest to `num / den`, the even one of two that are equally near. -/
def roundHalfEven (num den : Nat) : Nat :=
  let q := num / den
  let r := num % den
  if 2 * r < den then q
  else if den < 2 * r then q + 1
  else if q % 2 = 0 then q else q + 1

/-- Round the number `(-1)^neg * n / d` (`d` positive) to the nearest double, ties to the even
significand; beyond the range the result is an infinity, below it a signed zero. -/
def roundToDbl (neg : Bool) (n d : Nat) : Dbl :=
  if n = 0 then .fin neg 0 (-1074)
  else
    let e : Int := max (floorLog2 n d - 52) (-1074)
    let m : Nat :=
      if 0 ≤ e then roundHalfEven n (d * 2 ^ e.toNat) else roundHalfEven (n * 2 ^ (-e).toNat) d
    let m1 : Nat := if m = 2 ^ 53 then 2 ^ 52 else m
    let e1 : Int := if m = 2 ^ 53 then e + 1 else e
    if 971 < e1 then .inf neg else .fin neg m1 e1

/-- A natural number with a sign, as an integer. -/
def signedInt (neg : Bool) (n : Nat) : Int := if neg then -(n : Int) else (n : Int)

/-- Addition: the exact sum, rounded. -/
def Dbl.add : Dbl → Dbl → Dbl
  | .nan, _ => .nan
  | _, .nan => .nan
  | .inf a, .inf b => if a = b then .inf a else .nan
  | .inf a, .fin _ _ _ => .inf a
  | .fin _ _ _, .inf b => .inf b
  | .fin sa ma ea, .fin sb mb eb =>
    let e : Int := min ea eb
    let sum : Int :=
      signedInt sa (ma * 2 ^ (ea - e).toNat) + signedInt sb (mb * 2 ^ (eb - e).toNat)
    if sum = 0 then .fin (sa && sb) 0 (-1074)
    else if 0 ≤ e then roundToDbl (decide (sum < 0)) (sum.natAbs * 2 ^ e.toNat) 1
    else roundToDbl (decide (sum < 0)) sum.natAbs (2 ^ (-e).toNat)

/-- Division: the exact quotient, rounded. -/
def Dbl.div : Dbl → Dbl → Dbl
  | .nan, _ => .nan
  | _, .nan => .nan
  | .inf _, .inf _ => .nan
  | .inf a, .fin sb _ _ => .inf (xor a sb)
  | .fin sa _ _, .inf b => .fin (xor sa b) 0 (-1074)
  | .fin sa ma ea, .fin sb mb eb =>
    if mb = 0 then (if ma = 0 then .nan else .inf (xor sa sb))
    else if ma = 0 then .fin (xor sa sb) 0 (-1074)
    else if 0 ≤ ea - eb then roundToDbl (xor sa sb) (ma * 2 ^ (ea - eb).toNat) mb
    else roundToDbl (xor sa sb) ma (mb * 2 ^ (eb - ea).toNat)

/-- The double nearest to a natural number. -/
def Dbl.ofNat (n : Nat) : Dbl := roundToDbl false n 1

/-- The number `0` is the double `+0`, `fin false 0 (-1074)`. -/
instance : Zero Dbl := ⟨Dbl.ofNat 0⟩
instance : Add Dbl := ⟨Dbl.add⟩
instance : Div Dbl := ⟨Dbl.div⟩
instance : NatCast Dbl := ⟨Dbl.ofNat⟩
instance (n : Nat) : OfNat Dbl n := ⟨Dbl.ofNat n⟩

/-- The rational a finite double stands for. -/
def Dbl.toRat : Dbl → Option ℚ
  | .fin neg m e => some ((if neg then -1 else 1) * (m : ℚ) * (2 : ℚ) ^ e)
  | _ => none

/-- The double nearest to `10^308`. -/
def tenPow308 : Dbl := .fin false 5010420900022432 971

/-! ## Alarm evaluation (effect of lines 139-157) -/

def statusNoData : String := "等待数据…"
def statusNormal : String := "正常"
def statusHigh : String := "极高心率"
def statusLow : String := "过低心率"

/-- The outcome of one run of the evaluation effect: the status it sets and whether
`playBeep` was called. -/
structure Evaluation where
  status : String
  beep : Bool
  deriving DecidableEq

/-- Lines 147-156, on the plotted series `plot`. -/
def evaluate (plot : List ℚ) (enableAlarm : Bool) (alarmHigh alarmLow : ℚ) : Evaluation :=
  if plot.length = 0 then { status := statusNoData, beep := false }
  else
    let last := plot.getD (plot.length - 1) 0
    if enableAlarm && (decide (last ≥ alarmHigh) || decide (last ≤ alarmLow)) then
      { status := if last ≥ alarmHigh then statusHigh else statusLow, beep := true }
    else { status := statusNormal, beep := false }

/-- Lines 141-144: the plotted series of the buffer, the samples' values being exact
rationals. -/
def plotOf (data : List Sample) (smoothingWindow : Int) : List ℚ :=
  let hrs := data.map (fun d => d.hr)
  if smoothingWindow > 1 then sma hrs smoothingWindow else hrs

/-- The chart effect (lines 126-136), which runs once, at mount: it returns at line 128 when
there is no canvas, and the canvas is rendered only under `cfg.showChart` (line 202). The
result tells whether `chartRef.current` holds a chart afterwards. -/
def chartEffect (showChart : Bool) : Bool :=
  let canvas := showChart
  if !canvas then false else true

/-- The whole effect (lines 139-157): nothing happens without a chart (line 140). -/
def evaluationEffect (chart : Bool) (data : List Sample) (smoothingWindow : Int)
    (enableAlarm : Bool) (alarmHigh alarmLow : ℚ) : Option Evaluation :=
  if !chart then none
  else some (evaluate (plotOf data smoothingWindow) enableAlarm alarmHigh alarmLow)

/-! ## Transport (effect of lines 72-113) -/

def statusConnected : String := "SSE 已连接"
def statusFailed : String := "SSE 连接失败，回退轮询"
def statusPolling : String := "轮询中…"
def statusFetchFailed : String := "无法获取数据"

/-- The configuration fields the transport effect depends on (line 113). -/
structure TransportCfg where
  useSSE : Bool
  sseUrl : String
  latestUrl : String
  pollInterval : Nat
  deriving DecidableEq

/-- An `EventSource` object held by the browser: whether `close()` was called on it, and the
configuration captured by the closures installed as its handlers. -/
structure EventSourceRec where
  cfg : TransportCfg
  closed : Bool
  deriving DecidableEq

/-- An interval timer held by the browser: whether `clearInterval` was called on it, and the
configuration captured by its callback. -/
structure TimerRec where
  cfg : TransportCfg
  cleared : Bool
  deriving DecidableEq

/-- A `fetch` started by a tick of timer `timer`; `settled` once its promise has resolved
or rejected and the rest of the callback has run. -/
structure FetchRec where
  timer : Nat
  url : String
  settled : Bool
  deriving DecidableEq

/-- How a pending `fetch(..)` followed by `r.json()` ends (lines 102-104). -/
inductive FetchOutcome where
  | networkError
  | response (ok : Bool) (body : Except JsError JsVal)

/-- The component state the transport touches, together with the browser objects it
created. `statusLog` records every `setStatus` call in order; `status` is the last one. -/
structure State where
  data : List Sample
  status : String
  statusLog : List String
  sseRef : Option Nat
  pollRef : Option Nat
  sources : List EventSourceRec
  timers : List TimerRec
  fetches : List FetchRec

/-- State at mount: `data = []`, `status = '等待数据…'`, both refs `null`. -/
def State.init : State :=
  { data := [], status := statusNoData, statusLog := [], sseRef := none, pollRef := none,
    sources := [], timers := [], fetches := [] }

def setStatus (st : String) (s : State) : State :=
  { s with status := st, statusLog := s.statusLog ++ [st] }

/-- The call `es.close()` on the source numbered `id`. -/
def closeSource (id : Nat) (sources : List EventSourceRec) : List EventSourceRec :=
  match sources[id]? with
  | some r => sources.set id { r with closed := true }
  | none => sources

/-- The call `clearInterval(id)`. -/
def clearTimer (id : Nat) (timers : List TimerRec) : List TimerRec :=
  match timers[id]? with
  | some r => timers.set id { r with cleared := true }
  | none => timers

/-- Lines 74-75, and again lines 110-111 (the cleanup function): close and forget the push
handle, clear and forget the poll timer. -/
def cleanup (s : State) : State :=
  let s1 : State :=
    match s.sseRef with
    | some id => { s with sources := closeSource id s.sources, sseRef := none }
    | none => s
  match s1.pollRef with
  | some id => { s1 with timers := clearTimer id s1.timers, pollRef := none }
  | none => s1

/-- The function `startPolling` (lines 97-107) of the effect run with configuration `cfg`. -/
def startPolling (cfg : TransportCfg) (s : State) : State :=
  if s.pollRef.isSome then s
  else
    let s1 := setStatus statusPolling s
    { s1 with pollRef := some s1.timers.length,
              timers := s1.timers ++ [{ cfg := cfg, cleared := false }] }

/-- The effect body (lines 72-95). `esOk` tells whether `new EventSource(cfg.sseUrl)`
returned; when it throws, the `catch` of line 92 starts polling. -/
def effect (cfg : TransportCfg) (esOk : Bool) (s : State) : State :=
  let s0 := cleanup s
  if cfg.useSSE then
    if esOk then
      { s0 with sseRef := some s0.sources.length,
                sources := s0.sources ++ [{ cfg := cfg, closed := false }] }
    else startPolling cfg s0
  else startPolling cfg s0

/-- The handler `es.onopen` (line 81). -/
def onopen (s : State) : State := setStatus statusConnected s

/-- The handler `es.onerror` (lines 82-85) of the source `id` created with `cfg`. -/
def onerror (id : Nat) (cfg : TransportCfg) (s : State) : State :=
  let s1 := setStatus statusFailed s
  let s2 : State := { s1 with sources := closeSource id s1.sources }
  let s3 : State := { s2 with sseRef := none }
  startPolling cfg s3

/-- The handler `es.onmessage` (lines 86-91); `parsed` is the outcome of
`JSON.parse(e.data)`. The result is an `Except` so that an escaping exception would show. -/
def onmessage (parsed : Except JsError JsVal) (now : Nat) (s : State) : Except JsError State :=
  tryCatch
    (match parsed with
     | .error e => .error e
     | .ok obj => .ok { s with data := addPoint obj now s.data })
    (fun _ => .ok s)

/-- The first half of the interval callback (line 102): the request is issued. -/
def onTick (tid : Nat) (cfg : TransportCfg) (s : State) : State :=
  { s with fetches := s.fetches ++ [{ timer := tid, url := cfg.latestUrl, settled := false }] }

/-- The rest of the interval callback (lines 102-105), run when the request ends. -/
def onFetchSettled (outcome : FetchOutcome) (now : Nat) (s : State) : Except JsError State :=
  tryCatch
    (match outcome with
     | .networkError => .error { msg := "fetch" }
     | .response ok body =>
       if !ok then .error { msg := "no" }
       else
         match body with
         | .error e => .error e
         | .ok j => .ok { s with data := addPoint j now s.data })
    (fun _ => .ok (setStatus statusFetchFailed s))

/-- What the browser and React can make happen next. -/
inductive Event where
  /-- The effect runs for `cfg`: React first runs the previous cleanup, then the body. -/
  | configure (cfg : TransportCfg) (esOk : Bool)
  /-- The cleanup function runs with no effect run after it. -/
  | teardown
  /-- An `open` event for source `id`. -/
  | pushOpen (id : Nat)
  /-- An `error` event for source `id`. -/
  | pushError (id : Nat)
  /-- A `message` event for source `id`, with the outcome of parsing its data. -/
  | message (id : Nat) (parsed : Except JsError JsVal) (now : Nat)
  /-- Timer `tid` fires. -/
  | pollTick (tid : Nat)
  /-- The request numbered `fid` ends. -/
  | pollResponse (fid : Nat) (outcome : FetchOutcome) (now : Nat)

/-- Whether source `id` exists and has not been closed; its record if so. A closed
`EventSource` dispatches no event. -/
def liveSource (s : State) (id : Nat) : Option EventSourceRec :=
  match s.sources[id]? with
  | some r => if r.closed then none else some r
  | none => none

/-- Whether timer `tid` exists and has not been cleared; a cleared timer never fires. -/
def liveTimer (s : State) (tid : Nat) : Option TimerRec :=
  match s.timers[tid]? with
  | some r => if r.cleared then none else some r
  | none => none

/-- Whether request `fid` exists and is still pending. -/
def pendingFetch (s : State) (fid : Nat) : Option FetchRec :=
  match s.fetches[fid]? with
  | some r => if r.settled then none else some r
  | none => none

def settleFetch (fid : Nat) (fetches : List FetchRec) : List FetchRec :=
  match fetches[fid]? with
  | some r => fetches.set fid { r with settled := true }
  | none => fetches

/-- The value of an `Except` whose handlers caught everything; on an escaped exception the
event loop would report it and the state would stay as it was. -/
def orKeep (s : State) (r : Except JsError State) : State :=
  match r with
  | .ok s1 => s1
  | .error _ => s

/-- One turn of the event loop. An event for a closed source, a cleared timer or a settled
request is not delivered. -/
def step (s : State) (e : Event) : State :=
  match e with
  | .configure cfg esOk => effect cfg esOk (cleanup s)
  | .teardown => cleanup s
  | .pushOpen id =>
    match liveSource s id with
    | some _ => onopen s
    | none => s
  | .pushError id =>
    match liveSource s id with
    | some r => onerror id r.cfg s
    | none => s
  | .message id parsed now =>
    match liveSource s id with
    | some _ => orKeep s (onmessage parsed now s)
    | none => s
  | .pollTick tid =>
    match liveTimer s tid with
    | some r => onTick tid r.cfg s
    | none => s
  | .pollResponse fid outcome now =>
    match pendingFetch s fid with
    | some _ =>
      let s1 : State := { s with fetches := settleFetch fid s.fetches }
      orKeep s1 (onFetchSettled outcome now s1)
    | none => s

/-- Running a sequence of events. -/
def run (s : State) (es : List Event) : State := es.foldl step s

/-- Whether an event is a (re)configuration. -/
def Event.isConfigure : Event → Bool
  | .configure _ _ => true
  | _ => false

/-- The transport fields of `DEFAULT_CONFIG`: push mode. -/
def defaultTransport : TransportCfg :=
  { useSSE := true, sseUrl := "http://127.0.0.1:3030/events",
    latestUrl := "http://127.0.0.1:3030/latest", pollInterval := 1000 }

/-- The same endpoints with the `useSSE` box unticked: poll mode. -/
def pollTransport : TransportCfg := { defaultTransport with useSSE := false }

/-- Mount in poll mode, let the timer fire once (a request is now pending), then tick the
`useSSE` box: the effect clears the timer and opens a push channel. -/
def lateResponseTrace : List Event :=
  [.configure pollTransport true, .pollTick 0, .configure defaultTransport true]

/-- Mount in push mode, then the source reports an error and the code falls back. -/
def fallbackTrace : List Event := [.configure defaultTransport true, .pushError 0]

/-- Every source that can still dispatch is the one `sseRef` holds, and every timer that can
still fire is the one `pollRef` holds. -/
def OnlyCurrentLive (s : State) : Prop :=
  (∀ id : Nat, (liveSource s id).isSome = true → s.sseRef = some id) ∧
  (∀ tid : Nat, (liveTimer s tid).isSome = true → s.pollRef = some tid)

/-- No source can dispatch and no timer can fire. -/
def AllStopped (s : State) : Prop :=
  (∀ id : Nat, liveSource s id = none) ∧ (∀ tid : Nat, liveTimer s tid = none)


/-! # Theorems

## Lemmas on the buffer -/

theorem truncate_eq_drop (xs : List Sample) : truncate xs = xs.drop (xs.length - 240) := by
  unfold truncate
  split
  · rfl
  · have h : xs.length - 240 = 0 := by omega
    rw [h, List.drop_zero]

theorem drop_snoc_window (xs : List Sample) (x : Sample) :
    truncate (xs.drop (xs.length - 240) ++ [x]) = (xs ++ [x]).drop ((xs ++ [x]).length - 240) := by
  rw [truncate_eq_drop]
  simp only [List.length_append, List.length_drop, List.length_singleton]
  by_cases h : xs.length ≤ 240
  · have h1 : xs.length - 240 = 0 := by omega
    simp only [h1, List.drop_zero, Nat.sub_zero]
  · have h2 : xs.length - (xs.length - 240) + 1 - 240 = 1 := by omega
    have h3 : xs.length + 1 - 240 = (xs.length - 240) + 1 := by omega
    rw [h2, h3]
    have hlen : xs.length - 240 < xs.length := by omega
    rw [List.drop_append_of_le_length (by omega : (xs.length - 240) + 1 ≤ xs.length)]
    rw [List.drop_append_of_le_length (by simp only [List.length_drop]; omega)]
    rw [List.drop_drop]

theorem addPoint_of_sampleOf_some (obj : JsVal) (now : Nat) (prev : List Sample) (smp : Sample)
    (h : sampleOf (obj, now) = some smp) :
    addPoint obj now prev = truncate (pushSample prev smp) := by
  unfold sampleOf at h
  unfold addPoint addPointUpdater
  simp only at h
  split at h
  · cases h
  · rename_i ht
    rw [if_neg ht]
    split at h
    · simp only [Option.some.injEq] at h
      rw [h]
    · cases h

theorem addPoint_of_sampleOf_none (obj : JsVal) (now : Nat) (prev : List Sample)
    (h : sampleOf (obj, now) = none) : addPoint obj now prev = prev := by
  unfold sampleOf at h
  unfold addPoint
  simp only at h
  split at h
  · rename_i ht
    rw [if_pos ht]
  · rename_i ht
    rw [if_neg ht]
    split at h
    · cases h
    · rfl

theorem feed_snoc (ps : List (JsVal × Nat)) (p : JsVal × Nat) (buf : List Sample) :
    feed (ps ++ [p]) buf = addPoint p.1 p.2 (feed ps buf) := by
  simp [feed, List.foldl_append]

theorem feed_eq_window (ps : List (JsVal × Nat)) :
    feed ps [] = (ps.filterMap sampleOf).drop ((ps.filterMap sampleOf).length - 240) := by
  induction ps using List.reverseRecOn with
  | nil => rfl
  | append_singleton ps p ih =>
    rw [feed_snoc, ih, List.filterMap_append]
    cases hp : sampleOf p with
    | none =>
      rw [addPoint_of_sampleOf_none p.1 p.2 _ hp]
      simp [hp]
    | some smp =>
      rw [addPoint_of_sampleOf_some p.1 p.2 _ smp hp]
      simp only [List.filterMap_cons, hp, List.filterMap_nil, pushSample]
      exact drop_snoc_window _ smp

theorem filterMap_sampleOf_length (ps : List (JsVal × Nat))
    (h : ∀ p ∈ ps, (sampleOf p).isSome = true) : (ps.filterMap sampleOf).length = ps.length := by
  induction ps with
  | nil => rfl
  | cons p ps ih =>
    have hp := h p (List.mem_cons_self _ _)
    obtain ⟨smp, hs⟩ := Option.isSome_iff_exists.mp hp
    simp only [List.filterMap_cons, hs, List.length_cons]
    rw [ih (fun q hq => h q (List.mem_cons_of_mem _ hq))]


/-! ## Lemmas on smoothing -/

theorem foldl_push_eq_map {α β : Type} (f : β → α) (l : List β) (acc : List α) :
    l.foldl (fun out i => out ++ [f i]) acc = acc ++ l.map f := by
  induction l generalizing acc with
  | nil => simp
  | cons x xs ih => simp [ih]

theorem sma_eq_map {α : Type} [Zero α] [Add α] [Div α] [NatCast α] (values : List α)
    (window : Int) (hw : 1 < window) :
    sma values window =
      (List.range values.length).map (fun (i : Nat) =>
        (jsSlice values (max 0 ((i : Int) - window + 1)) ((i : Int) + 1)).foldl
            (fun a b => a + b) 0 /
          (((jsSlice values (max 0 ((i : Int) - window + 1)) ((i : Int) + 1)).length : Nat) : α)) := by
  unfold sma
  rw [if_neg (by omega)]
  exact (foldl_push_eq_map _ _ []).trans (by simp)

theorem jsSlice_window {α : Type} (values : List α) (window : Int) (hw : 1 < window) (i : Nat)
    (hi : i < values.length) :
    jsSlice values (max 0 ((i : Int) - window + 1)) ((i : Int) + 1) =
      (values.drop (max 0 ((i : Int) - window + 1)).toNat).take
        (i + 1 - (max 0 ((i : Int) - window + 1)).toNat) := by
  unfold jsSlice
  have h1 : ¬ (max 0 ((i : Int) - window + 1) < 0) := by omega
  have h2 : ¬ ((i : Int) + 1 < 0) := by omega
  simp only [h1, h2, if_false]
  have h3 : min (max 0 ((i : Int) - window + 1)) (values.length : Int)
      = max 0 ((i : Int) - window + 1) := by omega
  have h4 : min ((i : Int) + 1) (values.length : Int) = (i : Int) + 1 := by omega
  rw [h3, h4]
  congr 1
  omega

theorem foldl_add_eq_sum (xs : List ℚ) (a : ℚ) : xs.foldl (fun a b => a + b) a = a + xs.sum := by
  induction xs generalizing a with
  | nil => simp
  | cons x xs ih => simp [ih, add_assoc]

theorem fmean_rat (xs : List ℚ) : fmean xs = mean xs := by
  unfold fmean mean
  rw [foldl_add_eq_sum, zero_add]

theorem sma_getElem?_fmean {α : Type} [Zero α] [Add α] [Div α] [NatCast α] (values : List α)
    (window : Int) (hw : 1 < window) (i : Nat) (hi : i < values.length) :
    (sma values window)[i]? =
      some (fmean (segment values (max 0 ((i : Int) - window + 1)).toNat i)) := by
  rw [sma_eq_map values window hw, List.getElem?_map, List.getElem?_range hi]
  simp only [Option.map_some', jsSlice_window values window hw i hi]
  rfl

theorem sma_getElem? (values : List ℚ) (window : Int) (hw : 1 < window) (i : Nat)
    (hi : i < values.length) :
    (sma values window)[i]? =
      some (mean (segment values (max 0 ((i : Int) - window + 1)).toNat i)) := by
  rw [sma_getElem?_fmean values window hw i hi, fmean_rat]

theorem sma_length {α : Type} [Zero α] [Add α] [Div α] [NatCast α] (values : List α)
    (window : Int) (hw : 1 < window) : (sma values window).length = values.length := by
  rw [sma_eq_map values window hw]
  simp

/-! ## Lemmas on the double arithmetic -/

theorem bitLengthAux_zero (fuel : Nat) : bitLengthAux fuel 0 = 0 := by
  cases fuel <;> simp [bitLengthAux]

theorem bitLengthAux_bounds (fuel n : Nat) (hf : n ≤ fuel) (hn : n ≠ 0) :
    1 ≤ bitLengthAux fuel n ∧ 2 ^ (bitLengthAux fuel n - 1) ≤ n ∧ n < 2 ^ bitLengthAux fuel n := by
  induction fuel generalizing n with
  | zero => omega
  | succ fuel ih =>
    simp only [bitLengthAux, hn, if_false]
    by_cases hbig : 2 ^ 64 ≤ n
    · rw [if_pos hbig]
      have hq : n / 2 ^ 64 ≠ 0 := by
        have := Nat.div_pos hbig (Nat.two_pow_pos 64)
        omega
      have hle : n / 2 ^ 64 ≤ fuel := by
        have : n / 2 ^ 64 < n := Nat.div_lt_self (by omega) (by decide)
        omega
      obtain ⟨h1, hlo, hhi⟩ := ih (n / 2 ^ 64) hle hq
      refine ⟨by omega, ?_, ?_⟩
      · have e : bitLengthAux fuel (n / 2 ^ 64) + 64 - 1
            = (bitLengthAux fuel (n / 2 ^ 64) - 1) + 64 := by omega
        rw [e, pow_add]
        calc 2 ^ (bitLengthAux fuel (n / 2 ^ 64) - 1) * 2 ^ 64 ≤ n / 2 ^ 64 * 2 ^ 64 :=
              Nat.mul_le_mul_right _ hlo
          _ ≤ n := Nat.div_mul_le_self n (2 ^ 64)
      · rw [pow_add]
        exact (Nat.div_lt_iff_lt_mul (Nat.two_pow_pos 64)).mp hhi
    · rw [if_neg hbig]
      by_cases h2 : n / 2 = 0
      · have h1 : n = 1 := by omega
        subst h1
        simp [bitLengthAux_zero]
      · obtain ⟨h1, hlo, hhi⟩ := ih (n / 2) (by omega) h2
        refine ⟨by omega, ?_, ?_⟩
        · have e : bitLengthAux fuel (n / 2) + 1 - 1 = (bitLengthAux fuel (n / 2) - 1) + 1 := by
            omega
          rw [e, pow_succ]
          omega
        · rw [pow_succ]
          omega

theorem bitLength_bounds (n : Nat) (hn : n ≠ 0) :
    1 ≤ bitLength n ∧ 2 ^ (bitLength n - 1) ≤ n ∧ n < 2 ^ bitLength n :=
  bitLengthAux_bounds n n (Nat.le_refl n) hn

theorem bitLength_unique (n k : Nat) (hlo : 2 ^ k ≤ n) (hhi : n < 2 ^ (k + 1)) :
    bitLength n = k + 1 := by
  have hn : n ≠ 0 := by
    have : 0 < 2 ^ k := Nat.two_pow_pos _
    omega
  obtain ⟨h1, blo, bhi⟩ := bitLength_bounds n hn
  have hA : k < bitLength n := by
    by_contra hc
    have : 2 ^ bitLength n ≤ 2 ^ k := Nat.pow_le_pow_right (by decide) (by omega)
    omega
  have hB : bitLength n - 1 < k + 1 := by
    by_contra hc
    have : 2 ^ (k + 1) ≤ 2 ^ (bitLength n - 1) := Nat.pow_le_pow_right (by decide) (by omega)
    omega
  omega

theorem bitLength_mul_pow (m a : Nat) (hm : m ≠ 0) :
    bitLength (m * 2 ^ a) = bitLength m + a := by
  obtain ⟨h1, blo, bhi⟩ := bitLength_bounds m hm
  have e : bitLength m + a = (bitLength m - 1 + a) + 1 := by omega
  rw [e]
  apply bitLength_unique
  · rw [pow_add]
    exact Nat.mul_le_mul_right _ blo
  · have : bitLength m - 1 + a + 1 = bitLength m + a := by omega
    rw [this, pow_add]
    exact Nat.mul_lt_mul_of_pos_right bhi (Nat.two_pow_pos _)

theorem bitLength_pow (b : Nat) : bitLength (2 ^ b) = b + 1 :=
  bitLength_unique (2 ^ b) b (Nat.le_refl _) (Nat.pow_lt_pow_right (by decide) (by omega))

theorem roundHalfEven_mul (m d : Nat) (hd : 0 < d) : roundHalfEven (m * d) d = m := by
  unfold roundHalfEven
  simp only [Nat.mul_mod_left, Nat.mul_div_cancel _ hd]
  simp [hd]


theorem floorLog2_exact (m a b : Nat) (hm : m ≠ 0) :
    floorLog2 (m * 2 ^ a) (2 ^ b) = (bitLength m : Int) + (a : Int) - (b : Int) - 1 := by
  obtain ⟨h1, blo, bhi⟩ := bitLength_bounds m hm
  unfold floorLog2
  simp only [bitLength_mul_pow m a hm, bitLength_pow]
  have hk : ((bitLength m + a : Nat) : Int) - ((b + 1 : Nat) : Int)
      = (bitLength m : Int) + (a : Int) - (b : Int) - 1 := by
    push_cast
    ring
  rw [hk]
  have hs : scaledLe (2 ^ b) (m * 2 ^ a) ((bitLength m : Int) + (a : Int) - (b : Int) - 1)
      = true := by
    unfold scaledLe
    by_cases h0 : 0 ≤ (bitLength m : Int) + (a : Int) - (b : Int) - 1
    · rw [if_pos h0]
      have ht : b + ((bitLength m : Int) + (a : Int) - (b : Int) - 1).toNat
          = (bitLength m - 1) + a := by omega
      rw [decide_eq_true_eq, ← pow_add, ht, pow_add]
      exact Nat.mul_le_mul_right _ blo
    · rw [if_neg h0]
      have ht : a + (-((bitLength m : Int) + (a : Int) - (b : Int) - 1)).toNat + (bitLength m - 1)
          = b := by omega
      rw [decide_eq_true_eq, Nat.mul_assoc, ← pow_add]
      calc 2 ^ b = 2 ^ (bitLength m - 1)
            * 2 ^ (a + (-((bitLength m : Int) + (a : Int) - (b : Int) - 1)).toNat) := by
            rw [← pow_add, Nat.add_comm, ht]
        _ ≤ m * 2 ^ (a + (-((bitLength m : Int) + (a : Int) - (b : Int) - 1)).toNat) :=
            Nat.mul_le_mul_right _ blo
  rw [hs]
  rfl

theorem bitLength_le_of_lt_pow (m k : Nat) (hm : m ≠ 0) (h : m < 2 ^ k) : bitLength m ≤ k := by
  obtain ⟨h1, blo, bhi⟩ := bitLength_bounds m hm
  by_contra hc
  have : 2 ^ k ≤ 2 ^ (bitLength m - 1) := Nat.pow_le_pow_right (by decide) (by omega)
  omega

theorem roundToDbl_exact (s : Bool) (m : Nat) (e : Int) (a b : Nat) (hm : m ≠ 0)
    (hc : Dbl.Canonical (.fin s m e)) (hab : (a : Int) - (b : Int) = e) :
    roundToDbl s (m * 2 ^ a) (2 ^ b) = .fin s m e := by
  obtain ⟨hlt, hemin, hemax, hnorm⟩ := hc
  have hn : m * 2 ^ a ≠ 0 := Nat.mul_ne_zero hm (Nat.two_pow_pos a).ne'
  have hble := bitLength_le_of_lt_pow m 53 hm hlt
  have he : max (floorLog2 (m * 2 ^ a) (2 ^ b) - 52) (-1074) = e := by
    rw [floorLog2_exact m a b hm]
    rcases hnorm with h52 | hsub
    · have : bitLength m = 53 := bitLength_unique m 52 h52 hlt
      omega
    · omega
  unfold roundToDbl
  rw [if_neg hn]
  simp only [he]
  have hmant : (if 0 ≤ e then roundHalfEven (m * 2 ^ a) (2 ^ b * 2 ^ e.toNat)
      else roundHalfEven (m * 2 ^ a * 2 ^ (-e).toNat) (2 ^ b)) = m := by
    by_cases h0 : 0 ≤ e
    · rw [if_pos h0, ← pow_add]
      have : b + e.toNat = a := by omega
      rw [this]
      exact roundHalfEven_mul m _ (Nat.two_pow_pos a)
    · rw [if_neg h0, Nat.mul_assoc, ← pow_add]
      have : a + (-e).toNat = b := by omega
      rw [this]
      exact roundHalfEven_mul m _ (Nat.two_pow_pos b)
  rw [hmant]
  have hne : m ≠ 2 ^ 53 := by omega
  simp only [hne, if_false]
  rw [if_neg (by omega)]


theorem one_dbl : ((1 : Nat) : Dbl) = .fin false (2 ^ 52) (-52) := by decide

theorem signedInt_natAbs (s : Bool) (n : Nat) (hn : n ≠ 0) :
    signedInt s n ≠ 0 ∧ decide (signedInt s n < 0) = s ∧ (signedInt s n).natAbs = n := by
  cases s
  · simp [signedInt, hn]
  · simp [signedInt, hn]
    omega

set_option exponentiation.threshold 2200 in
theorem zero_add_canonical (s : Bool) (m : Nat) (e : Int) (hm : m ≠ 0)
    (hc : Dbl.Canonical (.fin s m e)) : (0 : Dbl) + .fin s m e = .fin s m e := by
  have hemin : -1074 ≤ e := hc.2.1
  show Dbl.add (.fin false 0 (-1074)) (.fin s m e) = _
  unfold Dbl.add
  have hmin : min (-1074 : Int) e = -1074 := by omega
  simp only [hmin]
  have hz : signedInt false (0 * 2 ^ ((-1074 : Int) - (-1074)).toNat) = 0 := by
    simp [signedInt]
  have hpos : m * 2 ^ (e - (-1074)).toNat ≠ 0 :=
    Nat.mul_ne_zero hm (Nat.two_pow_pos _).ne'
  obtain ⟨h1, h2, h3⟩ := signedInt_natAbs s _ hpos
  rw [hz, zero_add, if_neg h1, if_neg (by decide), h2, h3]
  exact roundToDbl_exact s m e _ 1074 hm hc (by
    have : (1074 : Int) = ((1074 : Nat) : Int) := rfl
    omega)

theorem canonical_div_one (s : Bool) (m : Nat) (e : Int) (hm : m ≠ 0)
    (hc : Dbl.Canonical (.fin s m e)) : Dbl.fin s m e / ((1 : Nat) : Dbl) = .fin s m e := by
  rw [one_dbl]
  show Dbl.div (.fin s m e) (.fin false (2 ^ 52) (-52)) = _
  unfold Dbl.div
  have h52 : (2 : Nat) ^ 52 ≠ 0 := (Nat.two_pow_pos 52).ne'
  simp only [h52, hm, if_false, Bool.xor_false]
  by_cases h0 : 0 ≤ e - (-52)
  · rw [if_pos h0]
    exact roundToDbl_exact s m e _ 52 hm hc (by omega)
  · rw [if_neg h0]
    have := roundToDbl_exact s m e 0 (52 + ((-52 : Int) - e).toNat) hm hc (by omega)
    rw [pow_zero, Nat.mul_one, pow_add] at this
    exact this

/-- Adding a double to `0` and dividing by `1` gives the double back, except that `-0`
becomes `0`. -/
theorem zero_add_div_one (x : Dbl) (hc : x.Canonical) (hx : x ≠ .fin true 0 (-1074)) :
    ((0 : Dbl) + x) / ((1 : Nat) : Dbl) = x := by
  cases x with
  | nan => rfl
  | inf s => cases s <;> decide
  | fin s m e =>
    by_cases hm : m = 0
    · subst hm
      have he : e = -1074 := by
        rcases hc.2.2.2 with h | h
        · exact absurd h (by decide)
        · exact h
      subst he
      cases s
      · decide
      · exact absurd rfl hx
    · rw [zero_add_canonical s m e hm hc]
      exact canonical_div_one s m e hm hc


/-! ## Lemmas on ingestion and alarm -/

theorem getProp_num_truthy (obj : JsVal) (k : String) (q : ℚ) (h : getProp obj k = .num q) :
    obj.truthy = true := by
  cases obj <;> first | rfl | simp [getProp] at h

theorem sampleOf_of_numeric (p : JsVal × Nat) (hr : ℚ) (h : getProp p.1 "hr" = .num hr) :
    sampleOf p = some (mkSample p.1 hr p.2) := by
  unfold sampleOf
  rw [getProp_num_truthy p.1 "hr" hr h, h]
  rfl

theorem sampleOf_of_not_numeric (p : JsVal × Nat) (h : ∀ q : ℚ, getProp p.1 "hr" ≠ .num q) :
    sampleOf p = none := by
  unfold sampleOf
  split
  · rfl
  · split
    · rename_i q hq
      exact absurd hq (h q)
    · rfl

theorem filterMap_eq_of_all_some {α β : Type} (f : α → Option β) (l : List α)
    (h : ∀ a ∈ l, (f a).isSome = true) : l.map f = (l.filterMap f).map some := by
  induction l with
  | nil => rfl
  | cons a l ih =>
    obtain ⟨b, hb⟩ := Option.isSome_iff_exists.mp (h a (List.mem_cons_self _ _))
    simp only [List.map_cons, List.filterMap_cons, hb]
    rw [ih (fun q hq => h q (List.mem_cons_of_mem _ hq))]

theorem getD_last (plot : List ℚ) (last : ℚ) (h : plot.getLast? = some last) :
    plot.getD (plot.length - 1) 0 = last := by
  rw [List.getLast?_eq_getElem?] at h
  simp [List.getD_eq_getElem?_getD, h]

theorem getLast?_some_length (plot : List ℚ) (last : ℚ) (h : plot.getLast? = some last) :
    ¬ plot.length = 0 := by
  intro h0
  rw [List.length_eq_zero] at h0
  subst h0
  simp at h


/-! ## Sample buffer: capacity, timestamp, rejection -/

/-- C1. Fed one by one from the empty buffer, `n` payloads with a numeric `hr` give exactly
`n` samples, and the buffer holds the last `min n 240` of them in the order of arrival; its
length is `min n 240`. -/
theorem buffer_capacity (ps : List (JsVal × Nat))
    (h : ∀ p ∈ ps, ∃ hr : ℚ, getProp p.1 "hr" = .num hr) :
    ps.map sampleOf = (ps.filterMap sampleOf).map some ∧
    (ps.filterMap sampleOf).length = ps.length ∧
    (feed ps []).length = min ps.length 240 ∧
    feed ps [] =
      (ps.filterMap sampleOf).drop ((ps.filterMap sampleOf).length - min ps.length 240) := by
  have hs : ∀ p ∈ ps, (sampleOf p).isSome = true := by
    intro p hp
    obtain ⟨hr, hhr⟩ := h p hp
    rw [sampleOf_of_numeric p hr hhr]
    rfl
  have hl := filterMap_sampleOf_length ps hs
  refine ⟨filterMap_eq_of_all_some sampleOf ps hs, hl, ?_, ?_⟩
  · rw [feed_eq_window, List.length_drop, hl]
    generalize ps.length = n
    omega
  · rw [feed_eq_window, hl]
    have e : ps.length - 240 = ps.length - min ps.length 240 := by omega
    rw [e]

theorem buffer_capacity_witness :
    (feed (List.replicate 241 (JsVal.obj [("hr", .num 72)], 7)) []).length = 240 := by
  have h := (buffer_capacity (List.replicate 241 (JsVal.obj [("hr", .num 72)], 7))
    (fun p hp => ⟨72, by rw [List.eq_of_mem_replicate hp]; rfl⟩)).2.2.1
  rw [List.length_replicate] at h
  exact h.trans (by decide)

/-- C8, as the code has it. A payload with a numeric `hr` appends a sample with that `hr`;
its timestamp is the payload's `ts` for every nonzero integer `ts` (for every truthy `ts`),
and the time of receipt when `ts` is absent or falsy: `undefined`, `0`, `null`, `false` or
the empty string (`obj.ts||Date.now()` tests truthiness). -/
theorem sample_timestamp (obj : JsVal) (hr : ℚ) (now : Nat) (prev : List Sample)
    (h : getProp obj "hr" = .num hr) :
    (addPoint obj now prev).getLast? = some (mkSample obj hr now) ∧
    (mkSample obj hr now).hr = hr ∧
    (∀ ts : Int, ts ≠ 0 → getProp obj "ts" = .num (ts : ℚ) →
      (mkSample obj hr now).t = .num (ts : ℚ)) ∧
    ((getProp obj "ts").truthy = true → (mkSample obj hr now).t = getProp obj "ts") ∧
    ((getProp obj "ts").truthy = false → (mkSample obj hr now).t = .num (now : ℚ)) ∧
    (getProp obj "ts" = .undefined → (mkSample obj hr now).t = .num (now : ℚ)) ∧
    (getProp obj "ts" = .num 0 → (mkSample obj hr now).t = .num (now : ℚ)) ∧
    (getProp obj "ts" = .null → (mkSample obj hr now).t = .num (now : ℚ)) ∧
    (getProp obj "ts" = .bool false → (mkSample obj hr now).t = .num (now : ℚ)) ∧
    (getProp obj "ts" = .str [] → (mkSample obj hr now).t = .num (now : ℚ)) := by
  have hf : (getProp obj "ts").truthy = false → (mkSample obj hr now).t = .num (now : ℚ) := by
    intro hp
    simp [mkSample, jsOr, hp]
  refine ⟨?_, rfl, ?_, ?_, hf, ?_, ?_, ?_, ?_, ?_⟩
  · rw [addPoint_of_sampleOf_some obj now prev _ (sampleOf_of_numeric (obj, now) hr h),
      truncate_eq_drop, pushSample]
    rw [List.getLast?_drop]
    simp
    omega
  · intro ts hts hp
    have : (ts : ℚ) ≠ 0 := by exact_mod_cast hts
    simp [mkSample, jsOr, hp, JsVal.truthy, this]
  · intro hp
    simp [mkSample, jsOr, hp]
  · intro hp
    exact hf (by rw [hp]; rfl)
  · intro hp
    exact hf (by rw [hp]; simp [JsVal.truthy])
  · intro hp
    exact hf (by rw [hp]; rfl)
  · intro hp
    exact hf (by rw [hp]; rfl)
  · intro hp
    exact hf (by rw [hp]; simp [JsVal.truthy])

theorem sample_timestamp_witness :
    (mkSample (.obj [("hr", .num 72), ("ts", .null)]) 72 5).t = .num ((5 : Nat) : ℚ) :=
  (sample_timestamp (.obj [("hr", .num 72), ("ts", .null)]) 72 5 [] rfl).2.2.2.2.2.2.2.1 rfl

/-- C8 fails as stated: the payload `{hr: 72, ts: 0}` provides the integer timestamp `0`, and
the sample appended at time `1700000000000` does not carry it. -/
theorem sample_timestamp_zero_counterexample :
    getProp (.obj [("hr", .num 72), ("ts", .num 0)]) "ts" = .num 0 ∧
    (addPoint (.obj [("hr", .num 72), ("ts", .num 0)]) 1700000000000 []).map Sample.t
      = [.num 1700000000000] ∧
    ¬ ((addPoint (.obj [("hr", .num 72), ("ts", .num 0)]) 1700000000000 []).map Sample.t
      = [getProp (.obj [("hr", .num 72), ("ts", .num 0)]) "ts"]) := by
  have e : (addPoint (.obj [("hr", .num 72), ("ts", .num 0)]) 1700000000000 []).map Sample.t
      = [.num 1700000000000] := by
    simp [addPoint, JsVal.truthy, getProp, List.lookup, addPointUpdater, truncate, pushSample,
      mkSample, jsOr]
  refine ⟨rfl, e, ?_⟩
  rw [e]
  simp [getProp, List.lookup]

/-- C9. A message that does not parse, or whose payload is `null`, `undefined` or has no `hr`
of number type, leaves the whole state as it was (buffer, status), and the handler returns
normally; `addPoint` leaves the buffer as it was. Conversely the handler passes every parsed
payload to `addPoint`: a payload with a numeric `hr` makes the array before truncation one
longer than the buffer, and the handler (and the event loop, for a source that is alive)
stores its truncation as the new buffer. -/
theorem malformed_payload_discarded (s : State) (now : Nat) (prev : List Sample) :
    (∀ e : JsError, onmessage (.error e) now s = .ok s) ∧
    (∀ obj : JsVal, (∀ q : ℚ, getProp obj "hr" ≠ .num q) →
      addPoint obj now prev = prev ∧ onmessage (.ok obj) now s = .ok s) ∧
    addPoint .null now prev = prev ∧ addPoint .undefined now prev = prev ∧
    onmessage (.ok .null) now s = .ok s ∧ onmessage (.ok .undefined) now s = .ok s ∧
    (∀ parsed : Except JsError JsVal, ∃ s1 : State, onmessage parsed now s = .ok s1 ∧
      s1.status = s.status ∧ s1.statusLog = s.statusLog) ∧
    (∀ obj : JsVal, onmessage (.ok obj) now s = .ok { s with data := addPoint obj now s.data }) ∧
    (∀ (obj : JsVal) (hr : ℚ), getProp obj "hr" = .num hr →
      (pushSample prev (mkSample obj hr now)).length = prev.length + 1 ∧
      addPoint obj now prev = truncate (pushSample prev (mkSample obj hr now)) ∧
      onmessage (.ok obj) now s
        = .ok { s with data := truncate (pushSample s.data (mkSample obj hr now)) } ∧
      (pushSample s.data (mkSample obj hr now)).length = s.data.length + 1 ∧
      (∀ (id : Nat) (r : EventSourceRec), liveSource s id = some r →
        step s (.message id (.ok obj) now)
          = { s with data := truncate (pushSample s.data (mkSample obj hr now)) })) := by
  have hbad : ∀ obj : JsVal, (∀ q : ℚ, getProp obj "hr" ≠ .num q) →
      ∀ buf : List Sample, addPoint obj now buf = buf := fun obj h buf =>
    addPoint_of_sampleOf_none obj now buf (sampleOf_of_not_numeric (obj, now) h)
  have hnull : ∀ q : ℚ, getProp .null "hr" ≠ .num q := by intro q hq; simp [getProp] at hq
  have hundef : ∀ q : ℚ, getProp .undefined "hr" ≠ .num q := by
    intro q hq; simp [getProp] at hq
  have hmsg : ∀ obj : JsVal, (∀ q : ℚ, getProp obj "hr" ≠ .num q) →
      onmessage (.ok obj) now s = .ok s := by
    intro obj h
    simp only [onmessage, tryCatch, hbad obj h]
  have hgood : ∀ (obj : JsVal) (hr : ℚ), getProp obj "hr" = .num hr →
      ∀ buf : List Sample,
        addPoint obj now buf = truncate (pushSample buf (mkSample obj hr now)) :=
    fun obj hr h buf =>
      addPoint_of_sampleOf_some obj now buf _ (sampleOf_of_numeric (obj, now) hr h)
  refine ⟨fun e => rfl, fun obj h => ⟨hbad obj h prev, hmsg obj h⟩, hbad _ hnull prev,
    hbad _ hundef prev, hmsg _ hnull, hmsg _ hundef, ?_, fun obj => rfl, ?_⟩
  · intro parsed
    cases parsed with
    | error e => exact ⟨s, rfl, rfl, rfl⟩
    | ok obj => exact ⟨{ s with data := addPoint obj now s.data }, rfl, rfl, rfl⟩
  · intro obj hr h
    have hm : onmessage (.ok obj) now s
        = .ok { s with data := truncate (pushSample s.data (mkSample obj hr now)) } := by
      simp only [onmessage, tryCatch, hgood obj hr h]
    refine ⟨by simp [pushSample], hgood obj hr h prev, hm, by simp [pushSample], ?_⟩
    intro id r hl
    simp only [step, hl, hm, orKeep]

theorem malformed_payload_discarded_witness :
    onmessage (.ok (.obj [("hr", .num 70)])) 5 State.init
      = .ok { State.init with
                data := truncate (pushSample State.init.data
                  (mkSample (.obj [("hr", .num 70)]) 70 5)) } :=
  ((malformed_payload_discarded State.init 5 []).2.2.2.2.2.2.2.2
    (.obj [("hr", .num 70)]) 70 rfl).2.2.1

/-! ## Smoothing -/

set_option exponentiation.threshold 2200 in
set_option maxRecDepth 100000 in
/-- C2, as the code has it. For an integer window above 1, `sma` keeps the length and its
`i`-th output is the quotient, in double arithmetic, of the sum of
`values[max(0, i-window+1) .. i]` (added left to right from `0`, every addition rounded) by
the number of values summed; in exact arithmetic that quotient is the arithmetic mean. The
first output is the first input, for every double but `-0` (which gives `0`); the `k`-th
output for `k < window` is that quotient for the first `k+1` values; and
`sma([10,20,30,40], 2) = [10,15,25,35]`. -/
theorem sma_edge_policy (values : List Dbl) (window : Int) (hw : 1 < window) :
    (sma values window).length = values.length ∧
    (∀ i : Nat, i < values.length →
      (sma values window)[i]? =
        some (fmean (segment values (max 0 ((i : Int) - window + 1)).toNat i))) ∧
    (∀ (x : Dbl) (xs : List Dbl), values = x :: xs → x.Canonical →
      (x ≠ .fin true 0 (-1074) → (sma values window).head? = some x) ∧
      (x = .fin true 0 (-1074) → (sma values window).head? = some (.fin false 0 (-1074)))) ∧
    (∀ k : Nat, k < values.length → (k : Int) < window →
      (sma values window)[k]? = some (fmean (values.take (k + 1)))) ∧
    sma ([10, 20, 30, 40] : List Dbl) 2 = [10, 15, 25, 35] ∧
    (∀ (qs : List ℚ) (i : Nat), i < qs.length →
      (sma qs window)[i]? =
        some (mean (segment qs (max 0 ((i : Int) - window + 1)).toNat i))) := by
  refine ⟨sma_length values window hw,
    fun i hi => sma_getElem?_fmean values window hw i hi, ?_, ?_, ?_,
    fun qs i hi => sma_getElem? qs window hw i hi⟩
  · intro x xs hv hc
    subst hv
    have h0 : (max 0 (((0 : Nat) : Int) - window + 1)).toNat = 0 := by omega
    have hseg : segment (x :: xs) 0 0 = [x] := by simp [segment]
    have hhead : (sma (x :: xs) window).head?
        = some (((0 : Dbl) + x) / ((1 : Nat) : Dbl)) := by
      rw [List.head?_eq_getElem?, sma_getElem?_fmean (x :: xs) window hw 0 (by simp), h0, hseg]
      unfold fmean
      rw [List.length_singleton]
      rfl
    rw [hhead]
    constructor
    · intro hx
      rw [zero_add_div_one x hc hx]
    · intro hx
      subst hx
      decide
  · intro k hk hkw
    rw [sma_getElem?_fmean values window hw k hk]
    have h0 : (max 0 ((k : Int) - window + 1)).toNat = 0 := by omega
    simp [h0, segment]
  · decide

theorem sma_edge_policy_witness :
    (sma ([70, 71, 73] : List Dbl) 3)[2]? = some (fmean (segment ([70, 71, 73] : List Dbl) 0 2)) :=
  (sma_edge_policy [70, 71, 73] 3 (by decide)).2.1 2 (by decide)

set_option exponentiation.threshold 2200 in
set_option maxRecDepth 100000 in
/-- C2 fails as stated. The inputs 70, 71, 73 with window 3: the last output is the double
`5019637084673365 * 2^-46` (71.33333333333333), not the arithmetic mean 214/3, which no
double equals. The inputs `10^308`, `10^308` with window 2: the last output is `Infinity`,
not the mean `10^308`. -/
theorem sma_rounding_counterexample :
    ([70, 71, 73] : List Dbl).map Dbl.toRat = [some 70, some 71, some 73] ∧
    sma ([70, 71, 73] : List Dbl) 3
      = [70, .fin false 4960996464525312 (-46), .fin false 5019637084673365 (-46)] ∧
    (sma ([70, 71, 73] : List Dbl) 3)[2]?.bind Dbl.toRat ≠ some (mean [70, 71, 73]) ∧
    sma [tenPow308, tenPow308] 2 = [tenPow308, .inf false] ∧
    (sma [tenPow308, tenPow308] 2)[1]?.bind Dbl.toRat = none := by
  have e1 : sma ([70, 71, 73] : List Dbl) 3
      = [70, .fin false 4960996464525312 (-46), .fin false 5019637084673365 (-46)] := by
    decide
  have hc : tenPow308.Canonical := by
    simp only [tenPow308, Dbl.Canonical]
    decide
  have hz : (0 : Dbl) + tenPow308 = tenPow308 :=
    zero_add_canonical false 5010420900022432 971 (by decide) hc
  have e2 : sma [tenPow308, tenPow308] 2 = [tenPow308, .inf false] := by
    have h1 : fmean [tenPow308] = tenPow308 := by
      show ((0 : Dbl) + tenPow308) / ((1 : Nat) : Dbl) = tenPow308
      rw [hz]
      exact canonical_div_one false 5010420900022432 971 (by decide) hc
    have h2 : fmean [tenPow308, tenPow308] = .inf false := by
      show (((0 : Dbl) + tenPow308) + tenPow308) / ((2 : Nat) : Dbl) = .inf false
      rw [hz]
      decide
    apply List.ext_getElem?
    intro i
    rcases Nat.lt_or_ge i 2 with hi | hi
    · rw [sma_getElem?_fmean [tenPow308, tenPow308] 2 (by decide) i hi]
      interval_cases i
      · exact congrArg some h1
      · exact congrArg some h2
    · rw [List.getElem?_eq_none (by rw [sma_length [tenPow308, tenPow308] 2 (by decide)]; exact hi),
        List.getElem?_eq_none (by simpa using hi)]
  refine ⟨?_, e1, ?_, e2, ?_⟩
  · have h : ([70, 71, 73] : List Dbl)
        = [.fin false 4925812092436480 (-46), .fin false 4996180836614144 (-46),
           .fin false 5136918324969472 (-46)] := by decide
    rw [h]
    simp only [List.map_cons, List.map_nil, Dbl.toRat]
    norm_num
  · rw [e1]
    simp only [List.getElem?_cons_succ, List.getElem?_cons_zero, Option.bind_some, Dbl.toRat,
      mean]
    norm_num
  · rw [e2]
    rfl

/-- C10. `sma(values, 1)` is `values`, as is `sma(values, w)` for every `w <= 1`, and
`sma([], w)` is `[]` for every `w`. -/
theorem sma_identity :
    (∀ values : List ℚ, sma values 1 = values) ∧
    (∀ (values : List ℚ) (w : Int), w ≤ 1 → sma values w = values) ∧
    (∀ w : Int, sma ([] : List ℚ) w = []) := by
  refine ⟨fun values => by simp [sma], fun values w hw => by simp [sma, hw], fun w => ?_⟩
  unfold sma
  split <;> rfl

theorem sma_identity_witness : sma ([3, 4] : List ℚ) 0 = [3, 4] :=
  sma_identity.2.1 [3, 4] 0 (by decide)

/-! ## Alarm -/

/-- Lines 147-156 classify a series as NoData when it is empty; otherwise Normal when the
alarm is disabled; otherwise High when `last >= high`; otherwise Low when `last <= low`;
otherwise Normal. When `chartRef.current` is set the effect sets exactly this status for the
plotted series of the buffer, which is empty exactly when the buffer is. -/
theorem evaluate_cascade (plot : List ℚ) (enabled : Bool) (high low : ℚ) :
    (plot = [] → (evaluate plot enabled high low).status = statusNoData) ∧
    (∀ last : ℚ, plot.getLast? = some last →
      (enabled = false → (evaluate plot enabled high low).status = statusNormal) ∧
      (enabled = true → last ≥ high → (evaluate plot enabled high low).status = statusHigh) ∧
      (enabled = true → ¬ last ≥ high → last ≤ low →
        (evaluate plot enabled high low).status = statusLow) ∧
      (enabled = true → ¬ last ≥ high → ¬ last ≤ low →
        (evaluate plot enabled high low).status = statusNormal)) ∧
    (∀ (data : List Sample) (w : Int),
      evaluationEffect true data w enabled high low
        = some (evaluate (plotOf data w) enabled high low) ∧
      (plotOf data w = [] ↔ data = [])) ∧
    (evaluate [180] true 180 40).status = statusHigh ∧
    (evaluate [40] true 180 40).status = statusLow ∧
    (evaluate [100] true 180 40).status = statusNormal ∧
    (evaluate [200] false 180 40).status = statusNormal ∧
    (evaluate [] true 180 40).status = statusNoData := by
  refine ⟨?_, ?_, ?_, ?_, ?_, ?_, ?_, ?_⟩
  · intro h
    subst h
    rfl
  · intro last hl
    have hne := getLast?_some_length plot last hl
    have hd : plot[plot.length - 1]?.getD 0 = last := by
      simpa [List.getD_eq_getElem?_getD] using getD_last plot last hl
    refine ⟨?_, ?_, ?_, ?_⟩
    · intro he
      simp [evaluate, hne, he]
    · intro he hh
      simp [evaluate, hne, he, hd, hh]
    · intro he hh hlo
      simp [evaluate, hne, he, hd, hh, hlo]
    · intro he hh hlo
      simp [evaluate, hne, he, hd, hh, hlo]
  · intro data w
    refine ⟨rfl, ?_⟩
    unfold plotOf
    by_cases hw : w > 1
    · simp only [hw, if_true]
      rw [← List.length_eq_zero, sma_length _ _ hw, List.length_map, List.length_eq_zero]
    · simp only [hw, if_false, List.map_eq_nil_iff]
  · norm_num [evaluate]
  · norm_num [evaluate]
  · norm_num [evaluate]
  · norm_num [evaluate]
  · norm_num [evaluate]

set_option exponentiation.threshold 2200 in
set_option maxRecDepth 100000 in
/-- C3 at the failing input. The stored configuration has `showChart: false`, so no chart is
created at mount; the alarm is enabled with thresholds 180 and 40 and the buffer holds one
sample with `hr = 200`. The effect returns at line 140: it sets no status and does not beep,
where lines 147-156 give High for this series, as the effect does once a chart exists. The
plotted series is `[200]`, in exact and in double arithmetic alike. -/
theorem alarm_skipped_without_chart :
    chartEffect false = false ∧
    evaluationEffect (chartEffect false) [{ t := .num 1000, hr := 200 }] 5 true 180 40 = none ∧
    (evaluate (plotOf [{ t := .num 1000, hr := 200 }] 5) true 180 40).status = statusHigh ∧
    evaluationEffect (chartEffect true) [{ t := .num 1000, hr := 200 }] 5 true 180 40
      = some { status := statusHigh, beep := true } ∧
    plotOf [{ t := .num 1000, hr := 200 }] 5 = [200] ∧
    sma ([200] : List Dbl) 5 = [200] := by
  have hp : plotOf [{ t := .num 1000, hr := 200 }] 5 = [200] := by
    unfold plotOf
    rw [if_pos (by decide), sma_eq_map _ _ (by decide)]
    simp [List.range_succ, jsSlice]
  refine ⟨rfl, rfl, ?_, ?_, hp, by decide⟩
  · rw [hp]
    norm_num [evaluate]
  · simp only [evaluationEffect, chartEffect, hp]
    norm_num [evaluate]



/-! ## Configuration store -/

theorem lookup_map_replace (kvs : List (String × JsVal)) (k k1 : String) (v : JsVal) :
    (kvs.map (fun kv => if kv.1 = k then (k, v) else kv)).lookup k1 =
      if k1 = k then (if kvs.any (fun kv => kv.1 == k) then some v else none)
      else kvs.lookup k1 := by
  induction kvs with
  | nil => simp
  | cons x xs ih =>
    obtain ⟨a, b⟩ := x
    by_cases hak : a = k
    · subst hak
      by_cases h1 : k1 = a
      · subst h1
        simp [List.lookup_cons]
      · have h2 : (k1 == a) = false := by simpa using h1
        simp [List.lookup_cons, h1, h2, ih]
    · have hak2 : (a == k) = false := by simpa using hak
      have hhead : (if a = k then (k, v) else (a, b)) = (a, b) := if_neg hak
      simp only [List.map_cons, hhead, List.lookup_cons, ih, List.any_cons, hak2, Bool.false_or]
      by_cases h1 : k1 = k
      · subst h1
        have h3 : (k1 == a) = false := by simpa using fun h => hak h.symm
        simp only [h3, if_true]
      · simp only [h1, if_false]

theorem lookup_append_singleton (kvs : List (String × JsVal)) (k k1 : String) (v : JsVal) :
    (kvs ++ [(k, v)]).lookup k1 =
      match kvs.lookup k1 with
      | some x => some x
      | none => if k1 = k then some v else none := by
  induction kvs with
  | nil =>
    by_cases h : k1 = k
    · subst h; simp [List.lookup_cons]
    · have h2 : (k1 == k) = false := by simpa using h
      simp [List.lookup_cons, h, h2]
  | cons x xs ih =>
    obtain ⟨a, b⟩ := x
    by_cases h : k1 = a
    · subst h; simp [List.lookup_cons]
    · have h2 : (k1 == a) = false := by simpa using h
      simp only [List.cons_append, List.lookup_cons, h2, ih]

theorem lookup_none_of_not_any (kvs : List (String × JsVal)) (k : String)
    (h : kvs.any (fun kv => kv.1 == k) = false) : kvs.lookup k = none := by
  induction kvs with
  | nil => rfl
  | cons x xs ih =>
    obtain ⟨a, b⟩ := x
    simp only [List.any_cons, Bool.or_eq_false_iff] at h
    have h2 : (k == a) = false := by
      have := h.1
      simp only [beq_eq_false_iff_ne, ne_eq] at this ⊢
      exact fun e => this e.symm
    simp only [List.lookup_cons, h2, ih h.2]

theorem lookup_insertIndex (kvs : List (String × JsVal)) (n : Nat) (k k1 : String) (v : JsVal)
    (hno : kvs.any (fun kv => kv.1 == k) = false) :
    (insertIndex kvs n k v).lookup k1 = if k1 = k then some v else kvs.lookup k1 := by
  induction kvs with
  | nil =>
    by_cases h : k1 = k
    · subst h; simp [insertIndex, List.lookup_cons]
    · have h2 : (k1 == k) = false := by simpa using h
      simp [insertIndex, List.lookup_cons, h, h2]
  | cons x xs ih =>
    obtain ⟨a, b⟩ := x
    simp only [List.any_cons, Bool.or_eq_false_iff] at hno
    have hak : a ≠ k := by simpa using hno.1
    have hhead : ∀ rest : List (String × JsVal),
        ((k, v) :: rest).lookup k1 = if k1 = k then some v else rest.lookup k1 := by
      intro rest
      by_cases h : k1 = k
      · subst h; simp [List.lookup_cons]
      · have h2 : (k1 == k) = false := by simpa using h
        simp [List.lookup_cons, h, h2]
    unfold insertIndex
    cases hidx : arrayIndex? a with
    | none => exact hhead _
    | some m =>
      by_cases hm : m < n
      · simp only [hm, if_true, List.lookup_cons, ih hno.2]
        by_cases h : k1 = k
        · subst h
          have h3 : (k1 == a) = false := by simpa using fun e => hak e.symm
          simp only [h3, if_true]
        · simp only [h, if_false]
      · simp only [hm, if_false]
        exact hhead _

theorem lookup_setProp (kvs : List (String × JsVal)) (k k1 : String) (v : JsVal) :
    (setProp kvs k v).lookup k1 = if k1 = k then some v else kvs.lookup k1 := by
  unfold setProp
  by_cases hany : kvs.any (fun kv => kv.1 == k) = true
  · rw [if_pos hany, lookup_map_replace, hany]
    simp
  · rw [if_neg hany]
    have hany2 : kvs.any (fun kv => kv.1 == k) = false := by
      simpa only [Bool.not_eq_true] using hany
    cases hidx : arrayIndex? k with
    | some n => exact lookup_insertIndex kvs n k k1 v hany2
    | none =>
      show (kvs ++ [(k, v)]).lookup k1 = _
      rw [lookup_append_singleton]
      by_cases h : k1 = k
      · subst h
        rw [lookup_none_of_not_any kvs k1 hany2]
      · simp only [h, if_false]
        cases kvs.lookup k1 <;> rfl

theorem lookup_none_of_not_mem_keys (kvs : List (String × JsVal)) (k : String)
    (h : k ∉ kvs.map Prod.fst) : kvs.lookup k = none := by
  induction kvs with
  | nil => rfl
  | cons x xs ih =>
    obtain ⟨a, b⟩ := x
    simp only [List.map_cons, List.mem_cons, not_or] at h
    have h2 : (k == a) = false := by simpa using h.1
    simp only [List.lookup_cons, h2, ih h.2]

theorem lookup_foldl_setProp (P T : List (String × JsVal)) (k : String)
    (hP : (P.map Prod.fst).Nodup) :
    (P.foldl (fun acc kv => setProp acc kv.1 kv.2) T).lookup k =
      match P.lookup k with
      | some v => some v
      | none => T.lookup k := by
  induction P generalizing T with
  | nil => rfl
  | cons x xs ih =>
    obtain ⟨a, b⟩ := x
    simp only [List.map_cons, List.nodup_cons] at hP
    simp only [List.foldl_cons]
    rw [ih _ hP.2, lookup_setProp]
    by_cases h : k = a
    · subst h
      rw [lookup_none_of_not_mem_keys xs k hP.1]
      simp [List.lookup_cons]
    · have h2 : (k == a) = false := by simpa using h
      simp only [h, if_false, List.lookup_cons, h2]

theorem lookup_foldl_setProp_last (P T : List (String × JsVal)) (k : String) :
    (P.foldl (fun acc kv => setProp acc kv.1 kv.2) T).lookup k =
      match P.reverse.lookup k with
      | some v => some v
      | none => T.lookup k := by
  induction P generalizing T with
  | nil => rfl
  | cons x xs ih =>
    obtain ⟨a, b⟩ := x
    simp only [List.foldl_cons, List.reverse_cons]
    rw [ih, lookup_setProp, lookup_append_singleton]
    cases xs.reverse.lookup k with
    | some y => rfl
    | none =>
      by_cases h : k = a
      · simp only [h, if_true]
      · simp only [h, if_false]

theorem lookup_spread_default (v : JsVal) (k : String) :
    (spread (spread [] DEFAULT_CONFIG) v).lookup k =
      match (ownEntries v).reverse.lookup k with
      | some x => some x
      | none => (ownEntries DEFAULT_CONFIG).lookup k := by
  have hd : spread [] DEFAULT_CONFIG = ownEntries DEFAULT_CONFIG := rfl
  rw [hd]
  exact lookup_foldl_setProp_last (ownEntries v) (ownEntries DEFAULT_CONFIG) k

theorem lookup_spread_obj (D P : List (String × JsVal)) (k : String)
    (hD : (D.map Prod.fst).Nodup) (hP : (P.map Prod.fst).Nodup) :
    (spread (spread [] (.obj D)) (.obj P)).lookup k =
      match P.lookup k with
      | some v => some v
      | none => D.lookup k := by
  unfold spread
  simp only [ownEntries]
  rw [lookup_foldl_setProp P _ k hP, lookup_foldl_setProp D [] k hD]
  cases D.lookup k <;> rfl

theorem default_keys_nodup : ((ownEntries DEFAULT_CONFIG).map Prod.fst).Nodup := by
  simp [DEFAULT_CONFIG, ownEntries]

theorem spread_default : spread [] DEFAULT_CONFIG = ownEntries DEFAULT_CONFIG := rfl

theorem default_is_obj : DEFAULT_CONFIG = .obj (ownEntries DEFAULT_CONFIG) := rfl

/-- C6. When the stored text parses to an object `P` (whose keys are distinct, as
`JSON.parse` gives them), `loadConfig` returns the record `{...DEFAULT_CONFIG, ...P}`, whose
value at every top-level key is `P`'s where `P` has the key and the default's otherwise; the
same holds over any default record `D`. A nested record is taken whole: default
`{a:1, theme:{x:1,y:2}}` and stored `{theme:{x:9}}` give `{a:1, theme:{x:9}}`. -/
theorem config_merge (P : List (String × JsVal)) (raw : String)
    (jsonParse : String → Except JsError JsVal) (hraw : raw ≠ "")
    (hparse : jsonParse raw = .ok (.obj P)) (hP : (P.map Prod.fst).Nodup) :
    (loadConfig (.ok (some raw)) jsonParse
        = .ok (.obj (spread (spread [] DEFAULT_CONFIG) (.obj P))) ∧
      ∀ k : String, (spread (spread [] DEFAULT_CONFIG) (.obj P)).lookup k =
        match P.lookup k with
        | some v => some v
        | none => (ownEntries DEFAULT_CONFIG).lookup k) ∧
    (∀ D : List (String × JsVal), (D.map Prod.fst).Nodup →
      loadConfigFrom (.obj D) (.ok (some raw)) jsonParse
          = .ok (.obj (spread (spread [] (.obj D)) (.obj P))) ∧
        ∀ k : String, (spread (spread [] (.obj D)) (.obj P)).lookup k =
          match P.lookup k with
          | some v => some v
          | none => D.lookup k) ∧
    loadConfigFrom (.obj [("a", .num 1), ("theme", .obj [("x", .num 1), ("y", .num 2)])])
        (.ok (some "\x7b\"theme\":\x7b\"x\":9\x7d\x7d"))
        (fun _ => .ok (.obj [("theme", .obj [("x", .num 9)])]))
      = .ok (.obj [("a", .num 1), ("theme", .obj [("x", .num 9)])]) := by
  have key : ∀ D : List (String × JsVal), (D.map Prod.fst).Nodup →
      loadConfigFrom (.obj D) (.ok (some raw)) jsonParse
          = .ok (.obj (spread (spread [] (.obj D)) (.obj P))) ∧
        ∀ k : String, (spread (spread [] (.obj D)) (.obj P)).lookup k =
          match P.lookup k with
          | some v => some v
          | none => D.lookup k := by
    intro D hD
    refine ⟨?_, fun k => lookup_spread_obj D P k hD hP⟩
    simp only [loadConfigFrom, hraw, if_false, hparse, tryCatch]
  refine ⟨?_, key, rfl⟩
  have := key (ownEntries DEFAULT_CONFIG) default_keys_nodup
  rw [← default_is_obj] at this
  exact this

theorem config_merge_witness :
    (spread (spread [] (.obj [("a", .num 1), ("theme", .obj [("x", .num 1), ("y", .num 2)])]))
        (.obj [("theme", .obj [("x", .num 9)])])).lookup "theme"
      = some (.obj [("x", .num 9)]) :=
  ((config_merge [("theme", .obj [("x", .num 9)])] "\x7b\"theme\":\x7b\"x\":9\x7d\x7d"
    (fun _ => .ok (.obj [("theme", .obj [("x", .num 9)])])) (by decide) rfl (by simp)).2.1
    [("a", .num 1), ("theme", .obj [("x", .num 1), ("y", .num 2)])] (by simp)).2 "theme"

/-- C7, as the code has it. `loadConfig` always returns a record and never raises. The
result is `DEFAULT_CONFIG` when reading the store throws, when the entry is absent or empty,
when it does not parse, and when it parses to a value without own enumerable properties:
`null`, a boolean, a number, the empty string, the empty array, the empty object. When it
parses to any other value the result is `{...DEFAULT_CONFIG, ...parsed}`: at every key, the
parsed value's own enumerable property of that name when it has one (the later entry, should
a list name a key twice), and the value of `DEFAULT_CONFIG` otherwise. -/
theorem config_load_total (getItem : Except JsError (Option String))
    (jsonParse : String → Except JsError JsVal) :
    (∃ c : JsVal, loadConfig getItem jsonParse = .ok c) ∧
    (∀ e : JsError, getItem = .error e → loadConfig getItem jsonParse = .ok DEFAULT_CONFIG) ∧
    (getItem = .ok none → loadConfig getItem jsonParse = .ok DEFAULT_CONFIG) ∧
    (getItem = .ok (some "") → loadConfig getItem jsonParse = .ok DEFAULT_CONFIG) ∧
    (∀ (raw : String) (e : JsError), getItem = .ok (some raw) → jsonParse raw = .error e →
      loadConfig getItem jsonParse = .ok DEFAULT_CONFIG) ∧
    (∀ (raw : String) (v : JsVal), getItem = .ok (some raw) → jsonParse raw = .ok v →
      ownEntries v = [] → loadConfig getItem jsonParse = .ok DEFAULT_CONFIG) ∧
    (ownEntries .null = [] ∧ (∀ b : Bool, ownEntries (.bool b) = []) ∧
      (∀ q : ℚ, ownEntries (.num q) = []) ∧ ownEntries (.str []) = [] ∧
      ownEntries (.arr []) = [] ∧ ownEntries (.obj []) = []) ∧
    (∀ (raw : String) (v : JsVal), getItem = .ok (some raw) → raw ≠ "" →
      jsonParse raw = .ok v →
      loadConfig getItem jsonParse = .ok (.obj (spread (spread [] DEFAULT_CONFIG) v)) ∧
      ∀ k : String, (spread (spread [] DEFAULT_CONFIG) v).lookup k =
        match (ownEntries v).reverse.lookup k with
        | some x => some x
        | none => (ownEntries DEFAULT_CONFIG).lookup k) := by
  refine ⟨?_, ?_, ?_, ?_, ?_, ?_, ⟨rfl, fun _ => rfl, fun _ => rfl, rfl, rfl, rfl⟩, ?_⟩
  · unfold loadConfig loadConfigFrom tryCatch
    split
    · exact ⟨_, rfl⟩
    · exact ⟨_, rfl⟩
  · intro e h
    subst h
    rfl
  · intro h
    subst h
    rfl
  · intro h
    subst h
    rfl
  · intro raw e h hp
    subst h
    unfold loadConfig loadConfigFrom
    by_cases hr : raw = ""
    · simp only [hr, if_true, tryCatch]
    · simp only [hr, if_false, hp, tryCatch]
  · intro raw v h hp hv
    subst h
    unfold loadConfig loadConfigFrom
    by_cases hr : raw = ""
    · simp only [hr, if_true, tryCatch]
    · simp only [hr, if_false, hp, tryCatch]
      have : spread (spread [] DEFAULT_CONFIG) v = ownEntries DEFAULT_CONFIG := by
        rw [spread_default]
        unfold spread
        rw [hv]
        rfl
      rw [this, ← default_is_obj]
  · intro raw v h hr hp
    subst h
    refine ⟨?_, fun k => lookup_spread_default v k⟩
    unfold loadConfig loadConfigFrom
    simp only [hr, if_false, hp, tryCatch]

theorem config_load_total_witness :
    (spread (spread [] DEFAULT_CONFIG) (.obj [("alarmLow", .num 50)])).lookup "alarmLow"
      = some (.num 50) :=
  ((config_load_total (.ok (some "\x7b\"alarmLow\":50\x7d"))
      (fun _ => .ok (.obj [("alarmLow", .num 50)]))).2.2.2.2.2.2.2
    "\x7b\"alarmLow\":50\x7d" (.obj [("alarmLow", .num 50)]) rfl (by decide) rfl).2 "alarmLow"

/-- C7 fails as stated: the stored text `[1]` parses, to an array and not to a configuration
object, and the result is not `DEFAULT_CONFIG`: it has the extra key `0`, listed first. -/
theorem config_load_array_counterexample :
    loadConfig (.ok (some "[1]")) (fun _ => .ok (.arr [.num 1])) ≠ .ok DEFAULT_CONFIG ∧
    loadConfig (.ok (some "[1]")) (fun _ => .ok (.arr [.num 1]))
      = .ok (.obj (("0", .num 1) :: ownEntries DEFAULT_CONFIG)) := by
  have e : loadConfig (.ok (some "[1]")) (fun _ => .ok (.arr [.num 1]))
      = .ok (.obj (("0", .num 1) :: ownEntries DEFAULT_CONFIG)) := rfl
  refine ⟨?_, e⟩
  rw [e]
  intro h
  injection h with h
  rw [default_is_obj] at h
  injection h with h
  have hl := congrArg List.length h
  simp [DEFAULT_CONFIG, ownEntries] at hl

/-! ## Transport: facts about single callbacks -/

theorem closeSource_length (id : Nat) (l : List EventSourceRec) :
    (closeSource id l).length = l.length := by
  unfold closeSource
  split <;> simp

theorem clearTimer_length (id : Nat) (l : List TimerRec) :
    (clearTimer id l).length = l.length := by
  unfold clearTimer
  split <;> simp

theorem closeSource_getElem? (id j : Nat) (l : List EventSourceRec) :
    (closeSource id l)[j]? =
      if j = id then l[id]?.map (fun r => { r with closed := true }) else l[j]? := by
  unfold closeSource
  cases h : l[id]? with
  | none =>
    by_cases hj : j = id
    · subst hj; simp [h]
    · simp [hj]
  | some r =>
    have hlt : id < l.length := by
      rcases Nat.lt_or_ge id l.length with h1 | h1
      · exact h1
      · rw [List.getElem?_eq_none h1] at h; cases h
    by_cases hj : j = id
    · subst hj
      simp [List.getElem?_set_self hlt]
    · simp only [hj, if_false]
      exact List.getElem?_set_ne (fun e => hj e.symm)

theorem clearTimer_getElem? (id j : Nat) (l : List TimerRec) :
    (clearTimer id l)[j]? =
      if j = id then l[id]?.map (fun r => { r with cleared := true }) else l[j]? := by
  unfold clearTimer
  cases h : l[id]? with
  | none =>
    by_cases hj : j = id
    · subst hj; simp [h]
    · simp [hj]
  | some r =>
    have hlt : id < l.length := by
      rcases Nat.lt_or_ge id l.length with h1 | h1
      · exact h1
      · rw [List.getElem?_eq_none h1] at h; cases h
    by_cases hj : j = id
    · subst hj
      simp [List.getElem?_set_self hlt]
    · simp only [hj, if_false]
      exact List.getElem?_set_ne (fun e => hj e.symm)

theorem cleanup_refs (s : State) : (cleanup s).sseRef = none ∧ (cleanup s).pollRef = none := by
  unfold cleanup
  cases h1 : s.sseRef <;> cases h2 : s.pollRef <;> simp [h1, h2]

theorem cleanup_rest (s : State) :
    (cleanup s).data = s.data ∧ (cleanup s).status = s.status ∧
    (cleanup s).statusLog = s.statusLog ∧ (cleanup s).fetches = s.fetches ∧
    (cleanup s).sources.length = s.sources.length ∧
    (cleanup s).timers.length = s.timers.length := by
  unfold cleanup
  cases h1 : s.sseRef <;> cases h2 : s.pollRef <;>
    simp [h1, h2, closeSource_length, clearTimer_length]

theorem cleanup_of_refs_none (s : State) (h1 : s.sseRef = none) (h2 : s.pollRef = none) :
    cleanup s = s := by
  unfold cleanup
  simp [h1, h2]

theorem cleanup_idem (s : State) : cleanup (cleanup s) = cleanup s :=
  cleanup_of_refs_none _ (cleanup_refs s).1 (cleanup_refs s).2


/-! ## Transport: only the current channel is alive -/

theorem cleanup_sources (s : State) :
    (cleanup s).sources =
      match s.sseRef with
      | some id => closeSource id s.sources
      | none => s.sources := by
  unfold cleanup
  cases h1 : s.sseRef <;> cases h2 : s.pollRef <;> simp [h1, h2]

theorem cleanup_timers (s : State) :
    (cleanup s).timers =
      match s.pollRef with
      | some id => clearTimer id s.timers
      | none => s.timers := by
  unfold cleanup
  cases h1 : s.sseRef <;> cases h2 : s.pollRef <;> simp [h1, h2]

theorem liveSource_isSome (s : State) (id : Nat) :
    (liveSource s id).isSome = true ↔ ∃ r, s.sources[id]? = some r ∧ r.closed = false := by
  unfold liveSource
  cases h : s.sources[id]? with
  | none => simp
  | some r => cases hc : r.closed <;> simp [hc]

theorem liveTimer_isSome (s : State) (tid : Nat) :
    (liveTimer s tid).isSome = true ↔ ∃ r, s.timers[tid]? = some r ∧ r.cleared = false := by
  unfold liveTimer
  cases h : s.timers[tid]? with
  | none => simp
  | some r => cases hc : r.cleared <;> simp [hc]

theorem not_live_closeSource (id j : Nat) (l : List EventSourceRec)
    (h : ∀ r, l[j]? = some r → r.closed = false → j = id) :
    ∀ r, (closeSource id l)[j]? = some r → r.closed = true := by
  intro r hr
  rw [closeSource_getElem?] at hr
  by_cases hj : j = id
  · subst hj
    simp only [if_true] at hr
    cases hl : l[j]? with
    | none => simp [hl] at hr
    | some r0 =>
      simp [hl] at hr
      subst hr
      rfl
  · simp only [hj, if_false] at hr
    cases hc : r.closed
    · exact absurd (h r hr hc) hj
    · rfl

theorem not_live_clearTimer (id j : Nat) (l : List TimerRec)
    (h : ∀ r, l[j]? = some r → r.cleared = false → j = id) :
    ∀ r, (clearTimer id l)[j]? = some r → r.cleared = true := by
  intro r hr
  rw [clearTimer_getElem?] at hr
  by_cases hj : j = id
  · subst hj
    simp only [if_true] at hr
    cases hl : l[j]? with
    | none => simp [hl] at hr
    | some r0 =>
      simp [hl] at hr
      subst hr
      rfl
  · simp only [hj, if_false] at hr
    cases hc : r.cleared
    · exact absurd (h r hr hc) hj
    · rfl

theorem liveSource_none_of (s : State) (id : Nat)
    (h : ∀ r, s.sources[id]? = some r → r.closed = true) : liveSource s id = none := by
  unfold liveSource
  cases hs : s.sources[id]? with
  | none => rfl
  | some r => simp [h r hs]

theorem liveTimer_none_of (s : State) (tid : Nat)
    (h : ∀ r, s.timers[tid]? = some r → r.cleared = true) : liveTimer s tid = none := by
  unfold liveTimer
  cases hs : s.timers[tid]? with
  | none => rfl
  | some r => simp [h r hs]

theorem cleanup_allStopped (s : State) (h : OnlyCurrentLive s) : AllStopped (cleanup s) := by
  constructor
  · intro id
    apply liveSource_none_of
    rw [cleanup_sources]
    cases hs : s.sseRef with
    | none =>
      intro r hr
      cases hc : r.closed
      · have := h.1 id ((liveSource_isSome s id).mpr ⟨r, hr, hc⟩)
        rw [hs] at this
        cases this
      · rfl
    | some id0 =>
      apply not_live_closeSource
      intro r hr hc
      have := h.1 id ((liveSource_isSome s id).mpr ⟨r, hr, hc⟩)
      rw [hs] at this
      exact (Option.some.inj this).symm
  · intro tid
    apply liveTimer_none_of
    rw [cleanup_timers]
    cases hs : s.pollRef with
    | none =>
      intro r hr
      cases hc : r.cleared
      · have := h.2 tid ((liveTimer_isSome s tid).mpr ⟨r, hr, hc⟩)
        rw [hs] at this
        cases this
      · rfl
    | some id0 =>
      apply not_live_clearTimer
      intro r hr hc
      have := h.2 tid ((liveTimer_isSome s tid).mpr ⟨r, hr, hc⟩)
      rw [hs] at this
      exact (Option.some.inj this).symm

theorem allStopped_onlyCurrentLive (s : State) (h : AllStopped s) : OnlyCurrentLive s := by
  constructor
  · intro id hl
    rw [h.1 id] at hl
    cases hl
  · intro tid hl
    rw [h.2 tid] at hl
    cases hl


/-! ## Transport: effect, fallback and the event loop -/

theorem liveSource_congr (s t : State) (id : Nat) (h : s.sources = t.sources) :
    liveSource s id = liveSource t id := by
  unfold liveSource
  rw [h]

theorem liveTimer_congr (s t : State) (tid : Nat) (h : s.timers = t.timers) :
    liveTimer s tid = liveTimer t tid := by
  unfold liveTimer
  rw [h]

theorem startPolling_fields (cfg : TransportCfg) (s : State) :
    (startPolling cfg s).sources = s.sources ∧ (startPolling cfg s).sseRef = s.sseRef ∧
    (startPolling cfg s).data = s.data ∧ (startPolling cfg s).fetches = s.fetches := by
  unfold startPolling
  split <;> simp [setStatus]

theorem startPolling_of_some (cfg : TransportCfg) (s : State) (h : s.pollRef.isSome = true) :
    startPolling cfg s = s := by
  unfold startPolling
  rw [if_pos h]

theorem startPolling_of_none (cfg : TransportCfg) (s : State) (h : s.pollRef = none) :
    (startPolling cfg s).pollRef = some s.timers.length ∧
    (startPolling cfg s).timers = s.timers ++ [{ cfg := cfg, cleared := false }] ∧
    (startPolling cfg s).status = statusPolling ∧
    (startPolling cfg s).statusLog = s.statusLog ++ [statusPolling] := by
  unfold startPolling
  simp [h, setStatus]

theorem startPolling_pollRef (cfg : TransportCfg) (s : State) :
    (startPolling cfg s).pollRef.isSome = true := by
  cases h : s.pollRef with
  | none => rw [(startPolling_of_none cfg s h).1]; rfl
  | some t =>
    have hs : s.pollRef.isSome = true := by rw [h]; rfl
    rw [startPolling_of_some cfg s hs]
    exact hs

theorem startPolling_timers_inv (cfg : TransportCfg) (s : State)
    (h : ∀ tid : Nat, (liveTimer s tid).isSome = true → s.pollRef = some tid) :
    ∀ tid : Nat, (liveTimer (startPolling cfg s) tid).isSome = true →
      (startPolling cfg s).pollRef = some tid := by
  cases hp : s.pollRef with
  | some t =>
    have hs : s.pollRef.isSome = true := by rw [hp]; rfl
    rw [startPolling_of_some cfg s hs]
    intro tid hl
    exact h tid hl
  | none =>
    obtain ⟨h1, h2, _, _⟩ := startPolling_of_none cfg s hp
    intro tid hl
    rw [h1]
    obtain ⟨r, hr, hc⟩ := (liveTimer_isSome _ tid).mp hl
    rw [h2] at hr
    rcases Nat.lt_trichotomy tid s.timers.length with hlt | heq | hgt
    · rw [List.getElem?_append_left hlt] at hr
      have := h tid ((liveTimer_isSome s tid).mpr ⟨r, hr, hc⟩)
      rw [hp] at this
      cases this
    · rw [heq]
    · rw [List.getElem?_eq_none (by simp; omega)] at hr
      cases hr

theorem effect_push (cfg : TransportCfg) (s : State) (h : cfg.useSSE = true) :
    effect cfg true s =
      { cleanup s with sseRef := some (cleanup s).sources.length,
                       sources := (cleanup s).sources ++ [{ cfg := cfg, closed := false }] } := by
  unfold effect
  simp [h]

theorem effect_poll (cfg : TransportCfg) (esOk : Bool) (s : State)
    (h : cfg.useSSE = false ∨ esOk = false) :
    effect cfg esOk s = startPolling cfg (cleanup s) := by
  unfold effect
  rcases h with h | h
  · simp [h]
  · cases hu : cfg.useSSE <;> simp [h]

theorem effect_exactly_one (cfg : TransportCfg) (esOk : Bool) (s : State) :
    ((effect cfg esOk s).sseRef.isSome = true ∧ (effect cfg esOk s).pollRef = none) ∨
    ((effect cfg esOk s).sseRef = none ∧ (effect cfg esOk s).pollRef.isSome = true) := by
  by_cases h : cfg.useSSE = true ∧ esOk = true
  · left
    obtain ⟨h1, h2⟩ := h
    subst h2
    rw [effect_push cfg s h1]
    exact ⟨rfl, (cleanup_refs s).2⟩
  · right
    have h' : cfg.useSSE = false ∨ esOk = false := by
      cases hu : cfg.useSSE <;> cases ho : esOk <;> simp_all
    rw [effect_poll cfg esOk s h']
    exact ⟨by rw [(startPolling_fields cfg _).2.1]; exact (cleanup_refs s).1,
      startPolling_pollRef cfg _⟩

theorem effect_inv (cfg : TransportCfg) (esOk : Bool) (s : State) (h : OnlyCurrentLive s) :
    OnlyCurrentLive (effect cfg esOk s) := by
  have hstop := cleanup_allStopped s h
  by_cases hc : cfg.useSSE = true ∧ esOk = true
  · obtain ⟨h1, h2⟩ := hc
    subst h2
    rw [effect_push cfg s h1]
    constructor
    · intro id hl
      obtain ⟨r, hr, hcl⟩ := (liveSource_isSome _ id).mp hl
      simp only at hr
      rcases Nat.lt_trichotomy id (cleanup s).sources.length with hlt | heq | hgt
      · rw [List.getElem?_append_left hlt] at hr
        have := (liveSource_isSome (cleanup s) id).mpr ⟨r, hr, hcl⟩
        rw [hstop.1 id] at this
        cases this
      · simp only [heq]
      · rw [List.getElem?_eq_none (by simp; omega)] at hr
        cases hr
    · intro tid hl
      have hl' : (liveTimer (cleanup s) tid).isSome = true := hl
      rw [hstop.2 tid] at hl'
      cases hl'
  · have h' : cfg.useSSE = false ∨ esOk = false := by
      cases hu : cfg.useSSE <;> cases ho : esOk <;> simp_all
    rw [effect_poll cfg esOk s h']
    constructor
    · intro id hl
      rw [liveSource_congr _ (cleanup s) id (startPolling_fields cfg _).1, hstop.1 id] at hl
      cases hl
    · exact startPolling_timers_inv cfg _ (allStopped_onlyCurrentLive _ hstop).2

theorem onerror_fields (id : Nat) (cfg : TransportCfg) (s : State) :
    (onerror id cfg s).sseRef = none ∧
    (onerror id cfg s).sources = closeSource id s.sources ∧
    (onerror id cfg s).data = s.data ∧ (onerror id cfg s).fetches = s.fetches ∧
    (onerror id cfg s).pollRef.isSome = true := by
  unfold onerror
  refine ⟨?_, ?_, ?_, ?_, startPolling_pollRef _ _⟩
  · rw [(startPolling_fields _ _).2.1]
  · rw [(startPolling_fields _ _).1]
    rfl
  · rw [(startPolling_fields _ _).2.2.1]
    rfl
  · rw [(startPolling_fields _ _).2.2.2]
    rfl

theorem onerror_inv (id : Nat) (cfg : TransportCfg) (s : State) (h : OnlyCurrentLive s)
    (hlive : (liveSource s id).isSome = true) : OnlyCurrentLive (onerror id cfg s) := by
  have hcur := h.1 id hlive
  constructor
  · intro j hl
    obtain ⟨r, hr, hc⟩ := (liveSource_isSome _ j).mp hl
    rw [(onerror_fields id cfg s).2.1] at hr
    have := not_live_closeSource id j s.sources (by
      intro r0 hr0 hc0
      have := h.1 j ((liveSource_isSome s j).mpr ⟨r0, hr0, hc0⟩)
      rw [hcur] at this
      exact (Option.some.inj this).symm) r hr
    rw [this] at hc
    cases hc
  · unfold onerror
    apply startPolling_timers_inv
    intro tid hl
    exact h.2 tid hl

theorem onmessage_fields (parsed : Except JsError JsVal) (now : Nat) (s : State) :
    ∃ d : List Sample, orKeep s (onmessage parsed now s) = { s with data := d } := by
  cases parsed with
  | error e => exact ⟨s.data, rfl⟩
  | ok obj => exact ⟨addPoint obj now s.data, rfl⟩

theorem onFetchSettled_refs (outcome : FetchOutcome) (now : Nat) (s : State) :
    (orKeep s (onFetchSettled outcome now s)).sseRef = s.sseRef ∧
    (orKeep s (onFetchSettled outcome now s)).pollRef = s.pollRef ∧
    (orKeep s (onFetchSettled outcome now s)).sources = s.sources ∧
    (orKeep s (onFetchSettled outcome now s)).timers = s.timers := by
  cases outcome with
  | networkError => exact ⟨rfl, rfl, rfl, rfl⟩
  | response ok body =>
    cases ok
    · exact ⟨rfl, rfl, rfl, rfl⟩
    · cases body <;> exact ⟨rfl, rfl, rfl, rfl⟩

/-- Events other than configuration, teardown and a delivered push error leave the refs and
the browser's sources and timers as they were. -/
theorem step_refs_unchanged (s : State) (e : Event) :
    (∃ cfg ok, e = .configure cfg ok) ∨ e = .teardown ∨
    (∃ id, e = .pushError id ∧ (liveSource s id).isSome = true) ∨
    ((step s e).sseRef = s.sseRef ∧ (step s e).pollRef = s.pollRef ∧
      (step s e).sources = s.sources ∧ (step s e).timers = s.timers) := by
  cases e with
  | configure cfg ok => exact Or.inl ⟨cfg, ok, rfl⟩
  | teardown => exact Or.inr (Or.inl rfl)
  | pushOpen id =>
    right; right; right
    cases h : liveSource s id <;> simp [step, h, onopen, setStatus]
  | pushError id =>
    cases h : liveSource s id with
    | none =>
      right; right; right
      simp [step, h]
    | some r =>
      right; right; left
      exact ⟨id, rfl, by rw [h]; rfl⟩
  | message id parsed now =>
    right; right; right
    cases h : liveSource s id with
    | none => simp [step, h]
    | some r =>
      obtain ⟨d, hd⟩ := onmessage_fields parsed now s
      simp [step, h, hd]
  | pollTick tid =>
    right; right; right
    cases h : liveTimer s tid <;> simp [step, h, onTick]
  | pollResponse fid outcome now =>
    right; right; right
    cases h : pendingFetch s fid with
    | none => simp [step, h]
    | some r =>
      have := onFetchSettled_refs outcome now { s with fetches := settleFetch fid s.fetches }
      simpa [step, h] using this

theorem step_inv (s : State) (e : Event) (h : OnlyCurrentLive s) :
    OnlyCurrentLive (step s e) := by
  rcases step_refs_unchanged s e with ⟨cfg, ok, rfl⟩ | rfl | ⟨id, rfl, hl⟩ | ⟨h1, h2, h3, h4⟩
  · exact effect_inv cfg ok _ (allStopped_onlyCurrentLive _ (cleanup_allStopped s h))
  · exact allStopped_onlyCurrentLive _ (cleanup_allStopped s h)
  · obtain ⟨r, hr⟩ := Option.isSome_iff_exists.mp hl
    simp only [step, hr]
    exact onerror_inv id r.cfg s h hl
  · constructor
    · intro id hl
      rw [liveSource_congr _ s id h3] at hl
      rw [h1]
      exact h.1 id hl
    · intro tid hl
      rw [liveTimer_congr _ s tid h4] at hl
      rw [h2]
      exact h.2 tid hl

theorem step_exclusive (s : State) (e : Event)
    (h : ¬ (s.sseRef.isSome = true ∧ s.pollRef.isSome = true)) :
    ¬ ((step s e).sseRef.isSome = true ∧ (step s e).pollRef.isSome = true) := by
  rcases step_refs_unchanged s e with ⟨cfg, ok, rfl⟩ | rfl | ⟨id, rfl, hl⟩ | ⟨h1, h2, _, _⟩
  · rcases effect_exactly_one cfg ok (cleanup s) with ⟨_, h2⟩ | ⟨h1, _⟩
    · intro hb
      simp only [step] at hb
      rw [h2] at hb
      exact absurd hb.2 (by simp)
    · intro hb
      simp only [step] at hb
      rw [h1] at hb
      exact absurd hb.1 (by simp)
  · intro hb
    simp only [step] at hb
    rw [(cleanup_refs s).1] at hb
    exact absurd hb.1 (by simp)
  · obtain ⟨r, hr⟩ := Option.isSome_iff_exists.mp hl
    intro hb
    simp only [step, hr] at hb
    rw [(onerror_fields id r.cfg s).1] at hb
    exact absurd hb.1 (by simp)
  · rw [h1, h2]
    exact h

theorem run_snoc (s : State) (es : List Event) (e : Event) :
    run s (es ++ [e]) = step (run s es) e := by
  simp [run, List.foldl_append]

theorem init_onlyCurrentLive : OnlyCurrentLive State.init := by
  constructor <;> intro id hl <;> simp [liveSource, liveTimer, State.init] at hl

theorem run_inv (es : List Event) :
    OnlyCurrentLive (run State.init es) ∧
    ¬ ((run State.init es).sseRef.isSome = true ∧ (run State.init es).pollRef.isSome = true) := by
  induction es using List.reverseRecOn with
  | nil => exact ⟨init_onlyCurrentLive, by simp [run, State.init]⟩
  | append_singleton es e ih =>
    rw [run_snoc]
    exact ⟨step_inv _ e ih.1, step_exclusive _ e ih.2⟩


theorem step_no_new_source (s : State) (e : Event) (hc : e.isConfigure = false) :
    (step s e).sources.length = s.sources.length ∧
    (s.sseRef = none → (step s e).sseRef = none) := by
  rcases step_refs_unchanged s e with ⟨cfg, ok, rfl⟩ | rfl | ⟨id, rfl, hl⟩ | ⟨h1, _, h3, _⟩
  · cases hc
  · exact ⟨(cleanup_rest s).2.2.2.2.1, fun _ => (cleanup_refs s).1⟩
  · obtain ⟨r, hr⟩ := Option.isSome_iff_exists.mp hl
    simp only [step, hr]
    refine ⟨?_, fun _ => (onerror_fields id r.cfg s).1⟩
    rw [(onerror_fields id r.cfg s).2.1, closeSource_length]
  · rw [h1, h3]
    exact ⟨rfl, id⟩

theorem run_no_new_source (s : State) (es : List Event)
    (hc : ∀ e ∈ es, e.isConfigure = false) (hs : s.sseRef = none) :
    (run s es).sseRef = none ∧ (run s es).sources.length = s.sources.length := by
  induction es using List.reverseRecOn with
  | nil => exact ⟨hs, rfl⟩
  | append_singleton es e ih =>
    have ih' := ih (fun x hx => hc x (List.mem_append_left _ hx))
    have he := hc e (List.mem_append_right _ (List.mem_singleton_self e))
    rw [run_snoc]
    obtain ⟨h1, h2⟩ := step_no_new_source (run s es) e he
    exact ⟨h2 ih'.1, h1.trans ih'.2⟩

theorem getElem?_length_append {α : Type} (l : List α) (x : α) : (l ++ [x])[l.length]? = some x := by
  simp

theorem configure_push (s : State) (cfg : TransportCfg) (h : cfg.useSSE = true) :
    step s (.configure cfg true) =
      { cleanup s with sseRef := some s.sources.length,
                       sources := (cleanup s).sources ++ [{ cfg := cfg, closed := false }] } := by
  simp only [step]
  rw [effect_push _ _ h, cleanup_idem, (cleanup_rest s).2.2.2.2.1]


/-- C5. From any state, configure in push mode with a source that opens: an error event on
that source closes it and clears the push handle, logs the failure status and then the
polling status, and leaves the poll timer set and alive. A tick of that timer followed by a
successful response with a numeric `hr` appends one sample (then truncates to 240). As long
as no (re)configuration runs, the push handle stays empty and no new source is created. -/
theorem fallback_scenario (s : State) (cfg : TransportCfg) (h : cfg.useSSE = true) :
    let id := s.sources.length
    let tid := s.timers.length
    let fid := s.fetches.length
    let s1 := step s (.configure cfg true)
    let s2 := step s1 (.pushOpen id)
    let s3 := step s2 (.pushError id)
    (s1.sseRef = some id ∧ s1.pollRef = none ∧
      liveSource s1 id = some { cfg := cfg, closed := false }) ∧
    (s2.status = statusConnected ∧ s2.sseRef = some id ∧ s2.pollRef = none) ∧
    (s3.sseRef = none ∧ liveSource s3 id = none) ∧
    s3.statusLog = s2.statusLog ++ [statusFailed, statusPolling] ∧
    (s3.status = statusPolling ∧ s3.pollRef = some tid ∧
      liveTimer s3 tid = some { cfg := cfg, cleared := false }) ∧
    s3.data = s.data ∧
    (∀ (j : JsVal) (hr : ℚ) (now : Nat), getProp j "hr" = .num hr →
      (step (step s3 (.pollTick tid)) (.pollResponse fid (.response true (.ok j)) now)).data
        = truncate (pushSample s3.data (mkSample j hr now)) ∧
      (truncate (pushSample s3.data (mkSample j hr now))).getLast? = some (mkSample j hr now)) ∧
    (∀ evs : List Event, (∀ e ∈ evs, e.isConfigure = false) →
      (run s3 evs).sseRef = none ∧ (run s3 evs).sources.length = s3.sources.length) := by
  intro id tid fid s1 s2 s3
  have hlen := (cleanup_rest s).2.2.2.2.1
  have htlen := (cleanup_rest s).2.2.2.2.2
  have e1 : s1 = _ := configure_push s cfg h
  have l1 : liveSource s1 id = some { cfg := cfg, closed := false } := by
    rw [e1]
    simp only [liveSource, id]
    rw [← hlen, getElem?_length_append]
    rfl
  have p1 : s1.pollRef = none := by rw [e1]; exact (cleanup_refs s).2
  have e2 : s2 = setStatus statusConnected s1 := by
    simp only [s2, step, l1]
    rfl
  have l2 : liveSource s2 id = some { cfg := cfg, closed := false } :=
    (liveSource_congr s2 s1 id (by rw [e2]; rfl)).trans l1
  have p2 : s2.pollRef = none := by rw [e2]; exact p1
  have e3 : s3 = onerror id cfg s2 := by
    simp only [s3, step, l2]
  have hs3 := startPolling_of_none cfg
    { setStatus statusFailed s2 with
        sources := closeSource id (setStatus statusFailed s2).sources
        sseRef := none } p2
  have e3' : s3 = startPolling cfg
      { setStatus statusFailed s2 with
          sources := closeSource id (setStatus statusFailed s2).sources
          sseRef := none } := e3
  have t2 : s2.timers = (cleanup s).timers := by rw [e2, e1]; rfl
  have d3 : s3.data = s.data := by
    rw [e3, (onerror_fields id cfg s2).2.2.1, e2, e1]
    exact (cleanup_rest s).1
  have f3 : s3.fetches = s.fetches := by
    rw [e3, (onerror_fields id cfg s2).2.2.2.1, e2, e1]
    exact (cleanup_rest s).2.2.2.1
  have r3 : s3.pollRef = some tid := by
    rw [e3', hs3.1]
    show some s2.timers.length = some s.timers.length
    rw [t2, htlen]
  have lt3 : liveTimer s3 tid = some { cfg := cfg, cleared := false } := by
    unfold liveTimer
    rw [e3', hs3.2.1]
    show (match (s2.timers ++ [{ cfg := cfg, cleared := false }])[tid]? with
      | some r => if r.cleared then none else some r
      | none => none) = _
    have : tid = s2.timers.length := by rw [t2, htlen]
    rw [this, getElem?_length_append]
    rfl
  refine ⟨⟨by rw [e1], p1, l1⟩, ⟨by rw [e2]; rfl, by rw [e2, e1]; rfl, p2⟩, ⟨?_, ?_⟩, ?_,
    ⟨by rw [e3', hs3.2.2.1], r3, lt3⟩, d3, ?_, ?_⟩
  · rw [e3]
    exact (onerror_fields id cfg s2).1
  · apply liveSource_none_of
    rw [e3, (onerror_fields id cfg s2).2.1]
    exact not_live_closeSource id id s2.sources (fun _ _ _ => rfl)
  · rw [e3', hs3.2.2.2]
    simp [setStatus]
  · intro j hr now hj
    have e4 : step s3 (.pollTick tid) = onTick tid cfg s3 := by
      simp only [step, lt3]
    have pf : pendingFetch (onTick tid cfg s3) fid
        = some { timer := tid, url := cfg.latestUrl, settled := false } := by
      simp only [pendingFetch, onTick, f3, fid]
      rw [getElem?_length_append]
      rfl
    constructor
    · rw [e4]
      simp only [step, pf, onFetchSettled, tryCatch, orKeep]
      show addPoint j now s3.data = _
      exact addPoint_of_sampleOf_some j now s3.data _ (sampleOf_of_numeric (j, now) hr hj)
    · rw [truncate_eq_drop, pushSample, List.getLast?_drop]
      simp
      omega
  · intro evs hev
    have hn : s3.sseRef = none := by
      rw [e3]
      exact (onerror_fields id cfg s2).1
    exact run_no_new_source s3 evs hev hn


theorem fallback_scenario_witness :
    (step (step (step State.init (.configure defaultTransport true)) (.pushOpen 0))
      (.pushError 0)).pollRef = some 0 :=
  (fallback_scenario State.init defaultTransport rfl).2.2.2.2.1.2.1

theorem step_stale_source (s : State) (h : OnlyCurrentLive s) (id : Nat)
    (hid : s.sseRef ≠ some id) (e : Event)
    (he : e = .pushOpen id ∨ e = .pushError id ∨ ∃ parsed now, e = .message id parsed now) :
    step s e = s := by
  have hn : liveSource s id = none := by
    cases hl : liveSource s id with
    | none => rfl
    | some r => exact absurd (h.1 id (by rw [hl]; rfl)) hid
  rcases he with rfl | rfl | ⟨parsed, now, rfl⟩ <;> simp only [step, hn]

theorem step_stale_timer (s : State) (h : OnlyCurrentLive s) (tid : Nat)
    (htid : s.pollRef ≠ some tid) : step s (.pollTick tid) = s := by
  have hn : liveTimer s tid = none := by
    cases hl : liveTimer s tid with
    | none => rfl
    | some r => exact absurd (h.2 tid (by rw [hl]; rfl)) htid
  simp only [step, hn]

/-- C4, as the code has it. In every state reachable from the initial one, `sseRef` and
`pollRef` are never both set; right after a (re)configuration exactly one of them is set;
and every source other than the one `sseRef` holds is closed, every timer other than the one
`pollRef` holds is cleared: a message, open or error event of such a source and a tick of
such a timer change nothing, the buffer included. (The response to a request that was
already pending at teardown is outside this statement.) -/
theorem transport_exclusivity (es : List Event) :
    ¬ ((run State.init es).sseRef.isSome = true ∧ (run State.init es).pollRef.isSome = true) ∧
    (∀ (cfg : TransportCfg) (esOk : Bool),
      ((step (run State.init es) (.configure cfg esOk)).sseRef.isSome = true ∧
        (step (run State.init es) (.configure cfg esOk)).pollRef = none) ∨
      ((step (run State.init es) (.configure cfg esOk)).sseRef = none ∧
        (step (run State.init es) (.configure cfg esOk)).pollRef.isSome = true)) ∧
    (∀ id : Nat, (run State.init es).sseRef ≠ some id →
      liveSource (run State.init es) id = none ∧
      (∀ (parsed : Except JsError JsVal) (now : Nat),
        step (run State.init es) (.message id parsed now) = run State.init es) ∧
      step (run State.init es) (.pushOpen id) = run State.init es ∧
      step (run State.init es) (.pushError id) = run State.init es) ∧
    (∀ tid : Nat, (run State.init es).pollRef ≠ some tid →
      liveTimer (run State.init es) tid = none ∧
      step (run State.init es) (.pollTick tid) = run State.init es) := by
  obtain ⟨hinv, hex⟩ := run_inv es
  refine ⟨hex, fun cfg esOk => effect_exactly_one cfg esOk _, ?_, ?_⟩
  · intro id hid
    refine ⟨?_, fun parsed now => step_stale_source _ hinv id hid _ (Or.inr (Or.inr ⟨_, _, rfl⟩)),
      step_stale_source _ hinv id hid _ (Or.inl rfl),
      step_stale_source _ hinv id hid _ (Or.inr (Or.inl rfl))⟩
    cases hl : liveSource (run State.init es) id with
    | none => rfl
    | some r => exact absurd (hinv.1 id (by rw [hl]; rfl)) hid
  · intro tid htid
    refine ⟨?_, step_stale_timer _ hinv tid htid⟩
    cases hl : liveTimer (run State.init es) tid with
    | none => rfl
    | some r => exact absurd (hinv.2 tid (by rw [hl]; rfl)) htid

theorem transport_exclusivity_witness :
    step (run State.init fallbackTrace) (.message 0 (.ok (.obj [("hr", .num 72)])) 5)
      = run State.init fallbackTrace :=
  ((transport_exclusivity fallbackTrace).2.2.1 0 (by decide)).2.1
    (.ok (.obj [("hr", .num 72)])) 5

/-- C4 fails as stated for the poll channel: in `lateResponseTrace` the poll channel has been
torn down (its timer is cleared, `pollRef` is empty, the push handle is set), and the
response to the request it had issued still appends a sample to the buffer. -/
theorem late_poll_response_counterexample :
    liveTimer (run State.init lateResponseTrace) 0 = none ∧
    (run State.init lateResponseTrace).pollRef = none ∧
    (run State.init lateResponseTrace).sseRef = some 0 ∧
    (run State.init lateResponseTrace).data = [] ∧
    (step (run State.init lateResponseTrace)
        (.pollResponse 0 (.response true (.ok (.obj [("hr", .num 72)]))) 5)).data
      ≠ (run State.init lateResponseTrace).data := by
  refine ⟨rfl, rfl, rfl, rfl, ?_⟩
  have e : (step (run State.init lateResponseTrace)
        (.pollResponse 0 (.response true (.ok (.obj [("hr", .num 72)]))) 5)).data
      = [mkSample (.obj [("hr", .num 72)]) 72 5] := rfl
  have e0 : (run State.init lateResponseTrace).data = [] := rfl
  rw [e, e0]
  exact List.cons_ne_nil _ _

end MiBand
